import Mathlib

/-!
Shallow embedding of the Teyuna game engine (backend/app/services/board.py and
backend/app/services/game.py, with the data model of backend/app/models/game.py)
and verification of its specification claims.

Python's global `random` module is modelled by an explicit `Rng` state threaded
through the functions that draw from it; `random.shuffle` is modelled by a
Fisher-Yates swap loop driven by the `Rng`.  Database persistence is dropped:
each service function is a pure state transformer on the `Game` aggregate.
-/

namespace Teyuna

/-! ### Enumerations (backend/app/schemas/game.py, backend/app/models/game.py) -/

inductive ResourceType
  | gold
  | stone
  | cotton
  | maize
  | wood
deriving DecidableEq, Repr

inductive TerrainType
  | sierra
  | canteras
  | tierras_altas
  | valles
  | selva
  | centro_ceremonial
deriving DecidableEq, Repr

inductive BuildingType
  | camino
  | bohio
  | templo
deriving DecidableEq, Repr

inductive DevelopmentCardType
  | guerrero_naoma
  | abundancia
  | sabiduria_mama
  | nuevos_caminos
  | avance_ancestral
deriving DecidableEq, Repr

inductive PortType
  | general
  | gold
  | stone
  | cotton
  | maize
  | wood
deriving DecidableEq, Repr

inductive PlayerColor
  | gold
  | terracotta
  | jade
  | obsidian
deriving DecidableEq, Repr, Inhabited

inductive GameStatus
  | waiting
  | active
  | finished
deriving DecidableEq, Repr

/-! ### Random source model

`random.seed(s)` / `random.shuffle` are modelled by a deterministic generator
state.  The exact word stream is irrelevant to every claim proved below; what
matters is that seeding is a function of the seed value alone and that a
shuffle is a permutation. -/

structure Rng where
  state : Nat
deriving DecidableEq, Repr

def Rng.next (g : Rng) : Nat × Rng :=
  let s := (6364136223846793005 * g.state + 1442695040888963407) % (2 ^ 64)
  (s / 2 ^ 33, ⟨s⟩)

/-- Model of `random._randbelow n`: a value in `[0, n)` (0 when `n = 0`). -/
def Rng.randbelow (g : Rng) (n : Nat) : Nat × Rng :=
  let (v, g') := g.next
  (v % n, g')

def mkRng (seed : Nat) : Rng := ⟨seed⟩

/-- Swap the elements at indices `i` and `j` (no-op when out of bounds). -/
def swapNth {α : Type} (l : List α) (i j : Nat) : List α :=
  match l.get? i, l.get? j with
  | some x, some y => (l.set i y).set j x
  | _, _ => l

/-- `random.shuffle`: Fisher-Yates, `for i in reversed(range(1, len(x)))`;
the first argument counts the remaining loop iterations (the current swap
index). -/
def shuffleAux {α : Type} : Nat → Rng → List α → List α × Rng
  | 0, g, l => (l, g)
  | Nat.succ i, g, l =>
    let jg := g.randbelow (i + 2)
    shuffleAux i jg.2 (swapNth l (i + 1) jg.1)

def shuffle {α : Type} (g : Rng) (l : List α) : List α × Rng :=
  match l.length with
  | 0 => (l, g)
  | Nat.succ n => shuffleAux n g l

/-! ### Board data model -/

structure Hex where
  id : Nat
  terrain : TerrainType
  number_token : Option Nat
  has_conquistador : Bool
  q : Int
  r : Int
deriving DecidableEq, Repr

structure Vertex where
  id : Nat
  q : Int
  r : Int
  building : Option BuildingType
  player_id : Option Nat
  is_port : Bool
  port_type : Option PortType
deriving DecidableEq, Repr

structure Edge where
  id : Nat
  q : Int
  r : Int
  direction : Nat
  has_road : Bool
  player_id : Option Nat
deriving DecidableEq, Repr

structure Port where
  id : Nat
  port_type : PortType
  vertex_ids : List Nat
deriving DecidableEq, Repr

structure Board where
  hexes : List Hex
  vertices : List Vertex
  edges : List Edge
  ports : List Port
  conquistador_position : Nat
deriving DecidableEq, Repr

/-! ### BoardGenerator (backend/app/services/board.py) -/

def TERRAIN_DISTRIBUTION : List TerrainType :=
  [TerrainType.selva, TerrainType.selva, TerrainType.selva, TerrainType.selva,
   TerrainType.canteras, TerrainType.canteras, TerrainType.canteras, TerrainType.canteras,
   TerrainType.valles, TerrainType.valles, TerrainType.valles, TerrainType.valles,
   TerrainType.tierras_altas, TerrainType.tierras_altas, TerrainType.tierras_altas,
   TerrainType.sierra, TerrainType.sierra, TerrainType.sierra,
   TerrainType.centro_ceremonial]

def NUMBER_TOKENS : List Nat := [2, 3, 3, 4, 4, 5, 5, 6, 6, 8, 8, 9, 9, 10, 10, 11, 11, 12]

def HEX_POSITIONS : List (Int × Int) :=
  [(0, 0),
   (1, -1), (1, 0), (0, 1), (-1, 1), (-1, 0), (0, -1),
   (2, -2), (2, -1), (2, 0), (1, 1), (0, 2), (-1, 2),
   (-2, 2), (-2, 1), (-2, 0), (-1, -1), (0, -2), (1, -2)]

def PORT_TYPES : List PortType :=
  [PortType.general, PortType.general, PortType.general, PortType.general,
   PortType.gold, PortType.stone, PortType.cotton, PortType.maize, PortType.wood]

/-- The `for i, (q, r) in enumerate(HEX_POSITIONS)` loop of `generate_board`:
terrain `i` is paired with position `i`, the ceremonial center receives no
number token and records the conquistador position, every other tile consumes
the next shuffled number token.  Returns the hex list and the conquistador
position (initially 0, overwritten at each ceremonial-center tile). -/
def build_hexes : List (Int × Int) → List TerrainType → List Nat → Nat → Nat → List Hex × Nat
  | (q, r) :: ps, t :: ts, ns, i, cp =>
    if t = TerrainType.centro_ceremonial then
      let rest := build_hexes ps ts ns (i + 1) i
      (⟨i, t, none, true, q, r⟩ :: rest.1, rest.2)
    else
      match ns with
      | n :: ns' =>
        let rest := build_hexes ps ts ns' (i + 1) cp
        (⟨i, t, some n, false, q, r⟩ :: rest.1, rest.2)
      | [] => ([], cp)
  | _, _, _, _, cp => ([], cp)

/-- Vertex offsets: `[1, 2, 1, -1, -2, -1]` zipped with `[1, 0, -1, -1, 0, 1]`. -/
def VERTEX_OFFSETS : List (Int × Int) := [(1, 1), (2, 0), (1, -1), (-1, -1), (-2, 0), (-1, 1)]

/-- Edge offsets `[1, 1, 0, -1, -1, 0]` zipped with `[0, 1, 1, 0, -1, -1]`,
paired with the direction index used for `direction % 3`. -/
def EDGE_OFFSETS : List (Nat × Int × Int) :=
  [(0, 1, 0), (1, 1, 1), (2, 0, 1), (3, -1, 0), (4, -1, -1), (5, 0, -1)]

/-- The shared dedup-and-assign-id loop of `_generate_vertices` /
`_generate_edges`: the `seen` set is modelled by the list of keys already
emitted. -/
def dedup_assign {κ α : Type} [DecidableEq κ] (mk : Nat → κ → α) :
    List κ → List κ → Nat → List α
  | [], _, _ => []
  | k :: rest, seen, i =>
    if k ∈ seen then dedup_assign mk rest seen i
    else mk i k :: dedup_assign mk rest (k :: seen) (i + 1)

def generate_vertices : List Vertex :=
  let candidates :=
    HEX_POSITIONS.flatMap fun qr =>
      VERTEX_OFFSETS.map fun o => (qr.1 * 3 + o.1, qr.2 * 3 + o.2)
  dedup_assign (fun i k => ⟨i, k.1, k.2, none, none, false, none⟩) candidates [] 0

def generate_edges : List Edge :=
  let candidates :=
    HEX_POSITIONS.flatMap fun qr =>
      EDGE_OFFSETS.map fun o => (qr.1 * 2 + o.2.1, qr.2 * 2 + o.2.2, o.1 % 3)
  dedup_assign (fun i k => ⟨i, k.1, k.2.1, k.2.2, false, none⟩) candidates [] 0

def PORT_VERTEX_PAIRS : List (Nat × Nat) :=
  [(0, 1), (3, 4), (7, 8), (11, 12), (15, 16), (19, 20), (23, 24), (27, 28), (31, 32)]

def generate_ports (g : Rng) : List Port × Rng :=
  let (types, g') := shuffle g PORT_TYPES
  (PORT_VERTEX_PAIRS.enum.map fun ip =>
    ⟨ip.1, types.getD ip.1 PortType.general, [ip.2.1, ip.2.2]⟩, g')

/-- `random.seed(seed)` when a seed is given, otherwise the ambient state. -/
def seedRng (seed : Option Nat) (rng : Rng) : Rng :=
  match seed with
  | some s => mkRng s
  | none => rng

/-- `terrains = TERRAIN_DISTRIBUTION.copy(); random.shuffle(terrains)`. -/
def board_terrains (g0 : Rng) : List TerrainType × Rng :=
  shuffle g0 TERRAIN_DISTRIBUTION

/-- `numbers = NUMBER_TOKENS.copy(); random.shuffle(numbers)`. -/
def board_numbers (g0 : Rng) : List Nat × Rng :=
  shuffle (board_terrains g0).2 NUMBER_TOKENS

/-- The hex-construction loop of `generate_board`. -/
def board_hexes (g0 : Rng) : List Hex × Nat :=
  build_hexes HEX_POSITIONS (board_terrains g0).1 (board_numbers g0).1 0 0

/-- `BoardGenerator.generate_board(seed)`.  A `some` seed resets the random
state exactly as `random.seed(seed)` does; `none` continues from the ambient
state. -/
def generate_board (seed : Option Nat) (rng : Rng) : Board × Rng :=
  let g0 := seedRng seed rng
  (⟨(board_hexes g0).1, generate_vertices, generate_edges,
    (generate_ports (board_numbers g0).2).1, (board_hexes g0).2⟩,
   (generate_ports (board_numbers g0).2).2)

/-- `BoardGenerator.get_terrain_resource`. -/
def get_terrain_resource : TerrainType → Option ResourceType
  | TerrainType.sierra => some ResourceType.gold
  | TerrainType.canteras => some ResourceType.stone
  | TerrainType.tierras_altas => some ResourceType.cotton
  | TerrainType.valles => some ResourceType.maize
  | TerrainType.selva => some ResourceType.wood
  | TerrainType.centro_ceremonial => none

/-! ### Game data model (backend/app/models/game.py)

Resource and point counters are Python `int`s, embedded as `Int` so that
non-negativity is a provable invariant rather than a typing artifact.
`active_trades` is carried by the source's `GameState` but never touched by any
engine action, so it is omitted. -/

structure Player where
  id : Nat
  user_id : Nat
  color : PlayerColor
  turn_order : Nat
  victory_points : Int
  is_host : Bool
  is_active : Bool
  gold : Int
  stone : Int
  cotton : Int
  maize : Int
  wood : Int
  warrior_cards : Int
  victory_cards : Int
  has_longest_path : Bool
  has_largest_army : Bool
  development_cards : List DevelopmentCardType
deriving DecidableEq, Repr

inductive LogEntry
  | game_started (turn_order : List Nat)
  | dice_roll (player_id : Nat) (dice : List Nat) (total : Nat)
  | build_entry (player_id : Nat) (building : BuildingType) (position : Nat)
  | buy_development_card (player_id : Nat)
  | end_turn (player_id : Nat) (new_turn : Nat)
  | game_won (winner_id : Nat) (points : Int)
deriving DecidableEq, Repr

structure GameState where
  board : Board
  development_deck : List DevelopmentCardType
  last_dice_roll : List Nat
  game_log : List LogEntry
deriving DecidableEq, Repr

structure Game where
  id : Nat
  max_players : Nat
  status : GameStatus
  current_turn : Nat
  winner_id : Option Nat
  players : List Player
  game_state : Option GameState
deriving DecidableEq, Repr

/-- Dynamic `getattr(player, resource)`. -/
def Player.getRes (p : Player) : ResourceType → Int
  | ResourceType.gold => p.gold
  | ResourceType.stone => p.stone
  | ResourceType.cotton => p.cotton
  | ResourceType.maize => p.maize
  | ResourceType.wood => p.wood

/-- Dynamic `setattr(player, resource, v)`. -/
def Player.setRes (p : Player) : ResourceType → Int → Player
  | ResourceType.gold, v => { p with gold := v }
  | ResourceType.stone, v => { p with stone := v }
  | ResourceType.cotton, v => { p with cotton := v }
  | ResourceType.maize, v => { p with maize := v }
  | ResourceType.wood, v => { p with wood := v }

/-! ### Economy tables (backend/app/services/game.py module constants) -/

def BUILDING_COSTS : BuildingType → List (ResourceType × Int)
  | BuildingType.camino => [(ResourceType.stone, 1), (ResourceType.wood, 1)]
  | BuildingType.bohio =>
      [(ResourceType.stone, 1), (ResourceType.wood, 1),
       (ResourceType.cotton, 1), (ResourceType.maize, 1)]
  | BuildingType.templo => [(ResourceType.gold, 3), (ResourceType.maize, 2)]

def DEVELOPMENT_CARD_COST : List (ResourceType × Int) :=
  [(ResourceType.gold, 1), (ResourceType.cotton, 1), (ResourceType.maize, 1)]

def DEVELOPMENT_CARDS : List DevelopmentCardType :=
  List.replicate 14 DevelopmentCardType.guerrero_naoma ++
  List.replicate 2 DevelopmentCardType.abundancia ++
  List.replicate 2 DevelopmentCardType.sabiduria_mama ++
  List.replicate 2 DevelopmentCardType.nuevos_caminos ++
  List.replicate 5 DevelopmentCardType.avance_ancestral

def AVAILABLE_COLORS : List PlayerColor :=
  [PlayerColor.gold, PlayerColor.terracotta, PlayerColor.jade, PlayerColor.obsidian]

/-- `all(getattr(player, r) >= a for r, a in costs.items())` — the resource
check loop of `build` / `buy_development_card`. -/
def canAfford (p : Player) (costs : List (ResourceType × Int)) : Bool :=
  costs.all fun ra => ra.2 ≤ p.getRes ra.1

/-- The deduction loop: `setattr(player, r, getattr(player, r) - a)`. -/
def deductCosts (p : Player) (costs : List (ResourceType × Int)) : Player :=
  costs.foldl (fun q ra => q.setRes ra.1 (q.getRes ra.1 - ra.2)) p

/-- Mutation of the first list element satisfying `q` (Python mutates the
object found by a scan-and-break loop). -/
def updateFirst {α : Type} (q : α → Bool) (f : α → α) : List α → List α
  | [] => []
  | x :: xs => if q x then f x :: xs else x :: updateFirst q f xs

/-! ### GameService (backend/app/services/game.py) -/

/-- `GameService.create_game`.  Identifiers that the database would assign
(`game.id`, the host `Player.id`) are passed in. -/
def create_game (gameId : Nat) (hostUserId : Nat) (hostPlayerId : Nat)
    (maxPlayers : Nat) (rng : Rng) : Game :=
  let br := generate_board none rng
  let dk := shuffle br.2 DEVELOPMENT_CARDS
  { id := gameId
    max_players := maxPlayers
    status := GameStatus.waiting
    current_turn := 0
    winner_id := none
    players := [{ id := hostPlayerId, user_id := hostUserId,
                  color := AVAILABLE_COLORS.headI, turn_order := 0,
                  victory_points := 0, is_host := true, is_active := true,
                  gold := 0, stone := 0, cotton := 0, maize := 0, wood := 0,
                  warrior_cards := 0, victory_cards := 0,
                  has_longest_path := false, has_largest_army := false,
                  development_cards := [] }]
    game_state := some { board := br.1, development_deck := dk.1,
                         last_dice_roll := [], game_log := [] } }

/-- `GameService.join_game`.  `newPlayerId` is the id the database would
assign to a freshly inserted row. -/
def join_game (g : Game) (userId : Nat) (newPlayerId : Nat) : Option Player × Game :=
  if g.status ≠ GameStatus.waiting then (none, g)
  else if g.max_players ≤ g.players.length then (none, g)
  else
    match g.players.find? fun p => p.user_id == userId with
    | some p => (some p, g)
    | none =>
      let used := g.players.map Player.color
      let available := AVAILABLE_COLORS.filter fun c => ¬ used.contains c
      match available with
      | [] => (none, g)
      | c :: _ =>
        let p : Player :=
          { id := newPlayerId, user_id := userId, color := c,
            turn_order := g.players.length, victory_points := 0,
            is_host := false, is_active := true,
            gold := 0, stone := 0, cotton := 0, maize := 0, wood := 0,
            warrior_cards := 0, victory_cards := 0,
            has_longest_path := false, has_largest_army := false,
            development_cards := [] }
        (some p, { g with players := g.players ++ [p] })

/-- `GameService.start_game`.  Note: the source checks the requester is the
host and that at least 3 players joined, but never checks `game.status`.
The shuffled copy of the player list fixes the new `turn_order` of each
player by object identity; the stored list keeps its original order. -/
def start_game (g : Game) (userId : Nat) (rng : Rng) : Bool × Game :=
  match g.players.find? fun p => p.is_host && p.user_id == userId with
  | none => (false, g)
  | some _ =>
    if g.players.length < 3 then (false, g)
    else
      let shuffled := (shuffle rng g.players).1
      let players' := g.players.map fun p =>
        match shuffled.enum.find? fun ip => ip.2.id == p.id with
        | some ip => { p with turn_order := ip.1 }
        | none => p
      let g1 := { g with status := GameStatus.active, current_turn := 0,
                         players := players' }
      match g1.game_state with
      | none => (true, g1)
      | some gs =>
        let gs' := { gs with game_log := gs.game_log ++
          [LogEntry.game_started (shuffled.map Player.user_id)] }
        (true, { g1 with game_state := some gs' })

/-- Amount credited per built vertex: `1 if building == "bohio" else 2`. -/
def creditAmount : BuildingType → Int
  | BuildingType.bohio => 1
  | _ => 2

/-- One iteration of the inner vertex loop of `_distribute_resources`:
`if vertex["building"] and vertex["player_id"]` (Python truthiness: the
owner id must be non-null and non-zero), then the first player whose `id`
matches is credited. -/
def creditForVertex (players : List Player) (v : Vertex) (res : ResourceType) :
    List Player :=
  match v.building, v.player_id with
  | some b, some pid =>
    if pid ≠ 0 then
      updateFirst (fun p => p.id == pid)
        (fun p => p.setRes res (p.getRes res + creditAmount b)) players
    else players
  | _, _ => players

/-- `GameService._distribute_resources`. -/
def distribute_resources (g : Game) (diceTotal : Nat) : Game :=
  match g.game_state with
  | none => g
  | some gs =>
    let players' := gs.board.hexes.foldl
      (fun ps hex =>
        if hex.number_token == some diceTotal && !hex.has_conquistador then
          match get_terrain_resource hex.terrain with
          | none => ps
          | some res => gs.board.vertices.foldl (fun qs v => creditForVertex qs v res) ps
        else ps)
      g.players
    { g with players := players' }

/-- `GameService.roll_dice`.  The two uniform draws `random.randint(1, 6)`
are passed in as `die1`, `die2`. -/
def roll_dice (g : Game) (playerId : Nat) (die1 die2 : Nat) :
    Option (Nat × Nat) × Game :=
  if g.status ≠ GameStatus.active then (none, g)
  else
    match g.players.find? fun p => p.turn_order == g.current_turn % g.players.length with
    | none => (none, g)
    | some cur =>
      if cur.id ≠ playerId then (none, g)
      else
        let total := die1 + die2
        let g1 := match g.game_state with
          | none => g
          | some gs =>
            let lg := gs.game_log ++ [LogEntry.dice_roll playerId [die1, die2] total]
            let gs' := { gs with last_dice_roll := [die1, die2], game_log := lg }
            { g with game_state := some gs' }
        let g2 := if total ≠ 7 then distribute_resources g1 total else g1
        (some (die1, die2), g2)

/-- `GameService._check_victory`: the first player (in list order) whose
total reaches 10 ends the game; iteration breaks there. -/
def total_points (p : Player) : Int :=
  p.victory_points + p.victory_cards +
    (if p.has_longest_path then 2 else 0) + (if p.has_largest_army then 2 else 0)

def check_victory (g : Game) : Game :=
  match g.players.find? fun p => 10 ≤ total_points p with
  | none => g
  | some p =>
    let g1 := { g with status := GameStatus.finished, winner_id := some p.user_id }
    match g1.game_state with
    | none => g1
    | some gs =>
      let gs' := { gs with game_log := gs.game_log ++
        [LogEntry.game_won p.id (total_points p)] }
      { g1 with game_state := some gs' }

/-- The placement block of `GameService.build`: returns the updated board and
the number of victory points the acting player gains.  A road is placed on the
first edge matching `id == position_id and not has_road`; a vertex building is
resolved at the first vertex with a matching id (the loop breaks there whether
or not anything was placed; a temple keeps the vertex's existing owner). -/
def apply_placement (b : Board) (playerId : Nat) (bt : BuildingType) (posId : Nat) :
    Board × Int :=
  match bt with
  | BuildingType.camino =>
    let edges' := updateFirst (fun e => e.id == posId && !e.has_road)
      (fun e => { e with has_road := true, player_id := some playerId }) b.edges
    ({ b with edges := edges' }, 0)
  | _ =>
    match b.vertices.find? fun v => v.id == posId with
    | none => (b, 0)
    | some v =>
      if bt = BuildingType.bohio ∧ v.building = none then
        let vs' := updateFirst (fun w => w.id == posId)
          (fun w => { w with building := some BuildingType.bohio,
                             player_id := some playerId }) b.vertices
        ({ b with vertices := vs' }, 1)
      else if bt = BuildingType.templo ∧ v.building = some BuildingType.bohio then
        let vs' := updateFirst (fun w => w.id == posId)
          (fun w => { w with building := some BuildingType.templo }) b.vertices
        ({ b with vertices := vs' }, 1)
      else (b, 0)

/-- `GameService.build`.  After the affordability check the cost is deducted
unconditionally; the placement loops then mutate the board only when the
position is valid, and the call returns `True` either way.
`_check_longest_path` is a no-op in the source. -/
def build (g : Game) (playerId : Nat) (bt : BuildingType) (posId : Nat) :
    Bool × Game :=
  if g.status ≠ GameStatus.active then (false, g)
  else
    match g.players.find? fun p => p.id == playerId with
    | none => (false, g)
    | some player =>
      if ¬ canAfford player (BUILDING_COSTS bt) then (false, g)
      else
        let players1 := updateFirst (fun p => p.id == playerId)
          (fun p => deductCosts p (BUILDING_COSTS bt)) g.players
        let g1 := { g with players := players1 }
        let g2 := match g1.game_state with
          | none => g1
          | some gs =>
            let pl := apply_placement gs.board playerId bt posId
            let players2 := updateFirst (fun p => p.id == playerId)
              (fun p => { p with victory_points := p.victory_points + pl.2 }) g1.players
            let lg := gs.game_log ++ [LogEntry.build_entry playerId bt posId]
            let gs' := { gs with board := pl.1, game_log := lg }
            { g1 with players := players2, game_state := some gs' }
        (true, check_victory g2)

/-- `GameService.buy_development_card`.  `list.pop()` draws from the end of
the deck. -/
def buy_development_card (g : Game) (playerId : Nat) :
    Option DevelopmentCardType × Game :=
  if g.status ≠ GameStatus.active then (none, g)
  else
    match g.game_state with
    | none => (none, g)
    | some gs =>
      match g.players.find? fun p => p.id == playerId with
      | none => (none, g)
      | some player =>
        if ¬ canAfford player DEVELOPMENT_CARD_COST then (none, g)
        else
          match gs.development_deck.getLast? with
          | none => (none, g)
          | some card =>
            let updP := fun p =>
              let p1 := deductCosts p DEVELOPMENT_CARD_COST
              let p2 := { p1 with development_cards := p1.development_cards ++ [card] }
              if card = DevelopmentCardType.avance_ancestral then
                { p2 with victory_cards := p2.victory_cards + 1 }
              else p2
            let lg := gs.game_log ++ [LogEntry.buy_development_card playerId]
            let gs' := { gs with development_deck := gs.development_deck.dropLast, game_log := lg }
            let g1 := { g with
              players := updateFirst (fun p => p.id == playerId) updP g.players,
              game_state := some gs' }
            (some card, check_victory g1)

/-- `GameService.end_turn`. -/
def end_turn (g : Game) (playerId : Nat) : Bool × Game :=
  if g.status ≠ GameStatus.active then (false, g)
  else
    match g.players.find? fun p => p.turn_order == g.current_turn % g.players.length with
    | none => (false, g)
    | some cur =>
      if cur.id ≠ playerId then (false, g)
      else
        let g1 := { g with current_turn := g.current_turn + 1 }
        match g1.game_state with
        | none => (true, g1)
        | some gs =>
          let lg := gs.game_log ++ [LogEntry.end_turn playerId g1.current_turn]
          let gs' := { gs with last_dice_roll := [], game_log := lg }
          (true, { g1 with game_state := some gs' })

/-! ### Engine action sequences -/

inductive Action
  | join (userId : Nat) (newPlayerId : Nat)
  | start (userId : Nat) (rng : Rng)
  | roll (playerId : Nat) (die1 die2 : Nat)
  | buildA (playerId : Nat) (bt : BuildingType) (posId : Nat)
  | buyCard (playerId : Nat)
  | endTurnA (playerId : Nat)
deriving DecidableEq, Repr

def step (g : Game) : Action → Game
  | Action.join u pid => (join_game g u pid).2
  | Action.start u rng => (start_game g u rng).2
  | Action.roll pid d1 d2 => (roll_dice g pid d1 d2).2
  | Action.buildA pid bt pos => (build g pid bt pos).2
  | Action.buyCard pid => (buy_development_card g pid).2
  | Action.endTurnA pid => (end_turn g pid).2

def run (g : Game) (acts : List Action) : Game := acts.foldl step g

/-! ### Shuffle is a permutation -/

theorem cons_set_perm {α : Type} :
    ∀ (l : List α) (j : Nat) (a y : α), l.get? j = some y →
      List.Perm (y :: l.set j a) (a :: l)
  | [], j, a, y, h => by simp at h
  | b :: t, 0, a, y, h => by
    have hb : b = y := by simpa using h
    subst hb
    simpa using List.Perm.swap a b t
  | b :: t, j + 1, a, y, h => by
    have h' : t.get? j = some y := by simpa using h
    have ih := cons_set_perm t j a y h'
    have step1 : List.Perm (y :: b :: t.set j a) (b :: y :: t.set j a) :=
      List.Perm.swap b y _
    have step2 : List.Perm (b :: y :: t.set j a) (b :: a :: t) := ih.cons b
    have step3 : List.Perm (b :: a :: t) (a :: b :: t) := List.Perm.swap a b t
    simpa using (step1.trans step2).trans step3

theorem set_set_perm {α : Type} :
    ∀ (l : List α) (i j : Nat) (x y : α), l.get? i = some x → l.get? j = some y →
      List.Perm ((l.set i y).set j x) l
  | [], i, j, x, y, hx, hy => by simp at hx
  | b :: t, 0, 0, x, y, hx, hy => by
    have hbx : b = x := by simpa using hx
    subst hbx
    simp
  | b :: t, 0, j + 1, x, y, hx, hy => by
    have hbx : b = x := by simpa using hx
    have hy' : t.get? j = some y := by simpa using hy
    subst hbx
    simpa using cons_set_perm t j b y hy'
  | b :: t, i + 1, 0, x, y, hx, hy => by
    have hby : b = y := by simpa using hy
    have hx' : t.get? i = some x := by simpa using hx
    subst hby
    simpa using cons_set_perm t i b x hx'
  | b :: t, i + 1, j + 1, x, y, hx, hy => by
    have hx' : t.get? i = some x := by simpa using hx
    have hy' : t.get? j = some y := by simpa using hy
    simpa using (set_set_perm t i j x y hx' hy').cons b

theorem swapNth_perm {α : Type} (l : List α) (i j : Nat) :
    List.Perm (swapNth l i j) l := by
  unfold swapNth
  cases hi : l.get? i with
  | none => simp
  | some x =>
    cases hj : l.get? j with
    | none => simp
    | some y => exact set_set_perm l i j x y hi hj

theorem shuffleAux_perm {α : Type} :
    ∀ (n : Nat) (g : Rng) (l : List α), List.Perm (shuffleAux n g l).1 l := by
  intro n
  induction n with
  | zero => intro g l; exact List.Perm.refl l
  | succ i ih =>
    intro g l
    exact (ih _ _).trans (swapNth_perm l (i + 1) _)

theorem shuffle_perm {α : Type} (g : Rng) (l : List α) :
    List.Perm (shuffle g l).1 l := by
  unfold shuffle
  cases h : l.length with
  | zero => simp
  | succ n => exact shuffleAux_perm n g l

theorem shuffle_length {α : Type} (g : Rng) (l : List α) :
    (shuffle g l).1.length = l.length :=
  (shuffle_perm g l).length_eq

theorem shuffle_count {α : Type} [DecidableEq α] (g : Rng) (l : List α) (a : α) :
    (shuffle g l).1.count a = l.count a :=
  (shuffle_perm g l).count_eq a

theorem shuffle_countP {α : Type} (g : Rng) (l : List α) (p : α → Bool) :
    (shuffle g l).1.countP p = l.countP p :=
  (shuffle_perm g l).countP_eq p

/-! ### Facts about `build_hexes` -/

theorem countP_nc_cons_cc (ts : List TerrainType) :
    (TerrainType.centro_ceremonial :: ts).countP
        (fun x => x ≠ TerrainType.centro_ceremonial) =
      ts.countP (fun x => x ≠ TerrainType.centro_ceremonial) := by
  simp [List.countP_cons]

theorem countP_nc_cons_other {t : TerrainType} (ts : List TerrainType)
    (h : t ≠ TerrainType.centro_ceremonial) :
    (t :: ts).countP (fun x => x ≠ TerrainType.centro_ceremonial) =
      ts.countP (fun x => x ≠ TerrainType.centro_ceremonial) + 1 := by
  simp [List.countP_cons, h]

theorem count_cc_cons_cc (ts : List TerrainType) :
    (TerrainType.centro_ceremonial :: ts).count TerrainType.centro_ceremonial =
      ts.count TerrainType.centro_ceremonial + 1 := by
  simp [List.count_cons]

theorem count_cc_cons_other {t : TerrainType} (ts : List TerrainType)
    (h : t ≠ TerrainType.centro_ceremonial) :
    (t :: ts).count TerrainType.centro_ceremonial =
      ts.count TerrainType.centro_ceremonial := by
  simp [List.count_cons, h]

theorem build_hexes_length :
    ∀ (ps : List (Int × Int)) (ts : List TerrainType) (ns : List Nat) (i cp : Nat),
      ts.countP (fun t => t ≠ TerrainType.centro_ceremonial) ≤ ns.length →
      (build_hexes ps ts ns i cp).1.length = min ps.length ts.length
  | [], ts, ns, i, cp, _ => by cases ts <;> simp [build_hexes]
  | (q, r) :: ps, [], ns, i, cp, _ => by simp [build_hexes]
  | (q, r) :: ps, t :: ts, ns, i, cp, h => by
    by_cases hc : t = TerrainType.centro_ceremonial
    · subst hc
      rw [countP_nc_cons_cc] at h
      have ih := build_hexes_length ps ts ns (i + 1) i h
      simp only [build_hexes, if_pos rfl]
      simp [ih]
      omega
    · rw [countP_nc_cons_other ts hc] at h
      cases ns with
      | nil =>
        simp only [List.length_nil] at h
        omega
      | cons n ns' =>
        have h' : ts.countP (fun t => t ≠ TerrainType.centro_ceremonial) ≤ ns'.length := by
          simp only [List.length_cons] at h
          omega
        have ih := build_hexes_length ps ts ns' (i + 1) cp h'
        simp only [build_hexes, if_neg hc]
        simp [ih]
        omega

theorem build_hexes_terrains :
    ∀ (ps : List (Int × Int)) (ts : List TerrainType) (ns : List Nat) (i cp : Nat),
      ts.countP (fun t => t ≠ TerrainType.centro_ceremonial) ≤ ns.length →
      ts.length ≤ ps.length →
      (build_hexes ps ts ns i cp).1.map Hex.terrain = ts
  | ps, [], ns, i, cp, _, _ => by cases ps <;> simp [build_hexes]
  | [], t :: ts, ns, i, cp, _, hl => by simp at hl
  | (q, r) :: ps, t :: ts, ns, i, cp, h, hl => by
    by_cases hc : t = TerrainType.centro_ceremonial
    · subst hc
      rw [countP_nc_cons_cc] at h
      simp [build_hexes,
        build_hexes_terrains ps ts ns (i + 1) i h (by simpa using hl)]
    · rw [countP_nc_cons_other ts hc] at h
      cases ns with
      | nil =>
        simp only [List.length_nil] at h
        omega
      | cons n ns' =>
        have h' : ts.countP (fun t => t ≠ TerrainType.centro_ceremonial) ≤ ns'.length := by
          simp only [List.length_cons] at h
          omega
        simp [build_hexes, hc,
          build_hexes_terrains ps ts ns' (i + 1) cp h' (by simpa using hl)]

theorem build_hexes_flags :
    ∀ (ps : List (Int × Int)) (ts : List TerrainType) (ns : List Nat) (i cp : Nat),
      ∀ h ∈ (build_hexes ps ts ns i cp).1,
        (h.has_conquistador = true ↔ h.terrain = TerrainType.centro_ceremonial) ∧
        (h.number_token = none ↔ h.terrain = TerrainType.centro_ceremonial) ∧
        i ≤ h.id
  | [], ts, ns, i, cp => by cases ts <;> simp [build_hexes]
  | (q, r) :: ps, [], ns, i, cp => by simp [build_hexes]
  | (q, r) :: ps, t :: ts, ns, i, cp => by
    by_cases hc : t = TerrainType.centro_ceremonial
    · intro h hmem
      simp only [build_hexes, hc, if_pos rfl] at hmem
      rcases List.mem_cons.1 hmem with heq | htail
      · subst heq; simp [hc]
      · have := build_hexes_flags ps ts ns (i + 1) i h htail
        exact ⟨this.1, this.2.1, by omega⟩
    · intro h hmem
      simp only [build_hexes, if_neg hc] at hmem
      match ns, hmem with
      | n :: ns', hmem =>
        simp only at hmem
        rcases List.mem_cons.1 hmem with heq | htail
        · subst heq
          refine ⟨by simp [hc], by simp [hc], by simp⟩
        · have := build_hexes_flags ps ts ns' (i + 1) cp h htail
          exact ⟨this.1, this.2.1, by omega⟩
      | [], hmem => simp at hmem

theorem build_hexes_cp_const :
    ∀ (ps : List (Int × Int)) (ts : List TerrainType) (ns : List Nat) (i cp : Nat),
      ts.count TerrainType.centro_ceremonial = 0 →
      (build_hexes ps ts ns i cp).2 = cp
  | [], ts, ns, i, cp, _ => by cases ts <;> simp [build_hexes]
  | (q, r) :: ps, [], ns, i, cp, _ => by simp [build_hexes]
  | (q, r) :: ps, t :: ts, ns, i, cp, h => by
    have hc : t ≠ TerrainType.centro_ceremonial := by
      intro he
      subst he
      rw [count_cc_cons_cc] at h
      omega
    rw [count_cc_cons_other ts hc] at h
    match ns with
    | n :: ns' => simp [build_hexes, hc, build_hexes_cp_const ps ts ns' (i + 1) cp h]
    | [] => simp [build_hexes, hc]

theorem build_hexes_cp :
    ∀ (ps : List (Int × Int)) (ts : List TerrainType) (ns : List Nat) (i cp : Nat),
      ts.count TerrainType.centro_ceremonial = 1 →
      ts.countP (fun t => t ≠ TerrainType.centro_ceremonial) ≤ ns.length →
      ts.length ≤ ps.length →
      ∃ h ∈ (build_hexes ps ts ns i cp).1,
        h.id = (build_hexes ps ts ns i cp).2 ∧
        h.terrain = TerrainType.centro_ceremonial ∧
        h.has_conquistador = true ∧ h.number_token = none
  | ps, [], ns, i, cp, hcnt, _, _ => by simp at hcnt
  | [], t :: ts, ns, i, cp, _, _, hl => by simp at hl
  | (q, r) :: ps, t :: ts, ns, i, cp, hcnt, hn, hl => by
    by_cases hc : t = TerrainType.centro_ceremonial
    · subst hc
      rw [count_cc_cons_cc] at hcnt
      have h' : ts.count TerrainType.centro_ceremonial = 0 := by omega
      refine ⟨⟨i, TerrainType.centro_ceremonial, none, true, q, r⟩, ?_, ?_, rfl, rfl, rfl⟩
      · simp [build_hexes]
      · simp [build_hexes, build_hexes_cp_const ps ts ns (i + 1) i h']
    · rw [count_cc_cons_other ts hc] at hcnt
      rw [countP_nc_cons_other ts hc] at hn
      cases ns with
      | nil =>
        simp only [List.length_nil] at hn
        omega
      | cons n ns' =>
        have hn' : ts.countP (fun t => t ≠ TerrainType.centro_ceremonial) ≤ ns'.length := by
          simp only [List.length_cons] at hn
          omega
        obtain ⟨h, hmem, hid, hter, hconq, htok⟩ :=
          build_hexes_cp ps ts ns' (i + 1) cp hcnt hn' (by simpa using hl)
        exact ⟨h, by simp [build_hexes, hc, hmem], by simpa [build_hexes, hc] using hid,
          hter, hconq, htok⟩

theorem build_hexes_conq_count :
    ∀ (ps : List (Int × Int)) (ts : List TerrainType) (ns : List Nat) (i cp : Nat),
      ts.countP (fun t => t ≠ TerrainType.centro_ceremonial) ≤ ns.length →
      ts.length ≤ ps.length →
      (build_hexes ps ts ns i cp).1.countP (fun h => h.has_conquistador) =
        ts.count TerrainType.centro_ceremonial
  | ps, [], ns, i, cp, _, _ => by cases ps <;> simp [build_hexes]
  | [], t :: ts, ns, i, cp, _, hl => by simp at hl
  | (q, r) :: ps, t :: ts, ns, i, cp, h, hl => by
    by_cases hc : t = TerrainType.centro_ceremonial
    · subst hc
      rw [countP_nc_cons_cc] at h
      rw [count_cc_cons_cc]
      simp [build_hexes, List.countP_cons,
        build_hexes_conq_count ps ts ns (i + 1) i h (by simpa using hl)]
    · rw [countP_nc_cons_other ts hc] at h
      rw [count_cc_cons_other ts hc]
      cases ns with
      | nil =>
        simp only [List.length_nil] at h
        omega
      | cons n ns' =>
        have h' : ts.countP (fun t => t ≠ TerrainType.centro_ceremonial) ≤ ns'.length := by
          simp only [List.length_cons] at h
          omega
        simp [build_hexes, hc, List.countP_cons,
          build_hexes_conq_count ps ts ns' (i + 1) cp h' (by simpa using hl)]

theorem generate_ports_length (g : Rng) : (generate_ports g).1.length = 9 := by
  simp [generate_ports]
  decide

set_option maxRecDepth 10000 in
theorem vertices_length_val : generate_vertices.length = 114 := by decide

set_option maxRecDepth 10000 in
theorem edges_length_val : generate_edges.length = 76 := by decide

/-! ### Board-generation claims (C8, C9)

Inside this section the shuffled components are kept opaque so that proofs
over a symbolic random state never try to normalise a shuffle. -/

section BoardClaims

attribute [local irreducible] shuffle board_terrains board_numbers board_hexes
  generate_vertices generate_edges generate_ports

theorem generate_board_fst (seed : Option Nat) (rng : Rng) :
    (generate_board seed rng).1 =
      ⟨(board_hexes (seedRng seed rng)).1, generate_vertices, generate_edges,
       (generate_ports (board_numbers (seedRng seed rng)).2).1,
       (board_hexes (seedRng seed rng)).2⟩ := rfl

theorem mk_hexes (a : List Hex) (b : List Vertex) (c : List Edge) (d : List Port)
    (e : Nat) : (Board.mk a b c d e).hexes = a := rfl

theorem mk_vertices (a : List Hex) (b : List Vertex) (c : List Edge) (d : List Port)
    (e : Nat) : (Board.mk a b c d e).vertices = b := rfl

theorem mk_edges (a : List Hex) (b : List Vertex) (c : List Edge) (d : List Port)
    (e : Nat) : (Board.mk a b c d e).edges = c := rfl

theorem mk_ports (a : List Hex) (b : List Vertex) (c : List Edge) (d : List Port)
    (e : Nat) : (Board.mk a b c d e).ports = d := rfl

theorem mk_conq (a : List Hex) (b : List Vertex) (c : List Edge) (d : List Port)
    (e : Nat) : (Board.mk a b c d e).conquistador_position = e := rfl

theorem seedRng_some (s : Nat) (rng : Rng) : seedRng (some s) rng = mkRng s := rfl

theorem board_terrains_countP (g0 : Rng) :
    ((board_terrains g0).1).countP (fun t => t ≠ TerrainType.centro_ceremonial) ≤
      ((board_numbers g0).1).length := by
  rw [board_numbers, board_terrains, shuffle_countP, shuffle_length]
  decide

theorem board_terrains_len (g0 : Rng) :
    ((board_terrains g0).1).length ≤ HEX_POSITIONS.length := by
  rw [board_terrains, shuffle_length]
  decide

theorem board_terrains_count_cc (g0 : Rng) :
    ((board_terrains g0).1).count TerrainType.centro_ceremonial = 1 := by
  rw [board_terrains, shuffle_count]
  decide

/-- C9: `generate(seed=S)` called twice with the same seed produces
structurally identical boards — the whole returned `Board` (hexes with their
terrain/number assignment, vertices, edges, ports, conquistador position) is
equal regardless of the ambient random state each call starts from. -/
theorem c9_generate_board_deterministic (s : Nat) (r1 r2 : Rng) :
    (generate_board (some s) r1).1 = (generate_board (some s) r2).1 := by
  rw [generate_board_fst, generate_board_fst, seedRng_some, seedRng_some]

/-- C8 (amended): every generated board has exactly 19 hex tiles, exactly one
conquistador hex — the ceremonial-center tile, which carries no number
token and whose id is the recorded conquistador position — 114 vertices,
76 edges (not the claimed 54 and 72), and 9 ports; the vertex and edge sets
are identical across all calls. -/
theorem c8_board_structure (seed : Option Nat) (rng : Rng) :
    (generate_board seed rng).1.hexes.length = 19 ∧
    (generate_board seed rng).1.hexes.countP (fun h => h.has_conquistador) = 1 ∧
    (∃ h ∈ (generate_board seed rng).1.hexes,
        h.id = (generate_board seed rng).1.conquistador_position ∧
        h.terrain = TerrainType.centro_ceremonial ∧
        h.has_conquistador = true ∧ h.number_token = none) ∧
    (∀ h ∈ (generate_board seed rng).1.hexes,
        (h.has_conquistador = true ↔ h.terrain = TerrainType.centro_ceremonial) ∧
        (h.number_token = none ↔ h.terrain = TerrainType.centro_ceremonial)) ∧
    (generate_board seed rng).1.vertices.length = 114 ∧
    (generate_board seed rng).1.edges.length = 76 ∧
    (generate_board seed rng).1.ports.length = 9 ∧
    (∀ (seed2 : Option Nat) (rng2 : Rng),
        (generate_board seed2 rng2).1.vertices = (generate_board seed rng).1.vertices ∧
        (generate_board seed2 rng2).1.edges = (generate_board seed rng).1.edges) := by
  have hcp := board_terrains_countP (seedRng seed rng)
  have hlen := board_terrains_len (seedRng seed rng)
  have hcnt := board_terrains_count_cc (seedRng seed rng)
  rw [generate_board_fst, mk_hexes, mk_vertices, mk_edges, mk_ports, mk_conq]
  refine ⟨?_, ?_, ?_, ?_, ?_, ?_, ?_, ?_⟩
  · rw [board_hexes, build_hexes_length _ _ _ _ _ hcp, board_terrains, shuffle_length]
    decide
  · rw [board_hexes, build_hexes_conq_count _ _ _ _ _ hcp hlen, hcnt]
  · rw [board_hexes]
    exact build_hexes_cp _ _ _ 0 0 hcnt hcp hlen
  · rw [board_hexes]
    intro h hm
    exact ⟨(build_hexes_flags _ _ _ 0 0 h hm).1, (build_hexes_flags _ _ _ 0 0 h hm).2.1⟩
  · rw [vertices_length_val]
  · rw [edges_length_val]
  · exact generate_ports_length _
  · intro seed2 rng2
    rw [generate_board_fst, mk_vertices, mk_edges]
    exact ⟨rfl, rfl⟩

end BoardClaims

set_option maxRecDepth 10000

/-- C8 (counterexample): at seed 0 the generated board has 114 vertices and
76 edges, refuting the claimed counts of 54 vertices and 72 edges. -/
theorem c8_counterexample :
    (generate_board (some 0) (mkRng 0)).1.vertices.length = 114 ∧
    (generate_board (some 0) (mkRng 0)).1.edges.length = 76 ∧
    ¬ ((generate_board (some 0) (mkRng 0)).1.vertices.length = 54 ∧
       (generate_board (some 0) (mkRng 0)).1.edges.length = 72) := by
  refine ⟨by decide, by decide, by decide⟩

/-! ### Generic helpers about `updateFirst` and `find?` -/

theorem updateFirst_of_forall_not {α : Type} (q : α → Bool) (f : α → α) :
    ∀ (l : List α), (∀ x ∈ l, q x = false) → updateFirst q f l = l
  | [], _ => rfl
  | x :: xs, h => by
    have hx := h x (List.mem_cons_self x xs)
    simp [updateFirst, hx]
    exact updateFirst_of_forall_not q f xs fun y hy => h y (List.mem_cons_of_mem x hy)

theorem find?_updateFirst_same {α : Type} (q : α → Bool) (f : α → α)
    (hqf : ∀ y, q (f y) = q y) :
    ∀ (l : List α), (updateFirst q f l).find? q = (l.find? q).map f
  | [] => rfl
  | x :: xs => by
    by_cases hx : q x = true
    · simp [updateFirst, hx, List.find?_cons, hqf]
    · have hx' : q x = false := by
        cases hq : q x
        · rfl
        · exact absurd hq hx
      simp [updateFirst, hx', List.find?_cons, find?_updateFirst_same q f hqf xs]

/-- Updating the first element matched by one id leaves lookups for another
id unchanged, provided the update preserves the id. -/
theorem find?_updateFirst_other {α : Type} (q q' : α → Bool) (f : α → α)
    (hqf : ∀ y, q (f y) = q y)
    (hdisj : ∀ y, q' y = true → q y = false) :
    ∀ (l : List α), (updateFirst q' f l).find? q = l.find? q
  | [] => rfl
  | x :: xs => by
    by_cases hx : q' x = true
    · have hqx : q x = false := hdisj x hx
      have hqfx : q (f x) = false := by rw [hqf]; exact hqx
      simp [updateFirst, hx, List.find?_cons, hqx, hqfx]
    · have hx' : q' x = false := by
        cases hq : q' x
        · rfl
        · exact absurd hq hx
      by_cases hqx : q x = true
      · simp [updateFirst, hx', List.find?_cons, hqx]
      · have hqx' : q x = false := by
          cases hq : q x
          · rfl
          · exact absurd hq hqx
        simp [updateFirst, hx', List.find?_cons, hqx',
          find?_updateFirst_other q q' f hqf hdisj xs]

theorem updateFirst_forall {α : Type} (q : α → Bool) (f : α → α) (P : α → Prop)
    (hf : ∀ x, P x → P (f x)) :
    ∀ (l : List α), (∀ x ∈ l, P x) → ∀ x ∈ updateFirst q f l, P x
  | [], _, x, hx => by simp [updateFirst] at hx
  | y :: ys, h, x, hx => by
    by_cases hy : q y = true
    · simp [updateFirst, hy] at hx
      rcases hx with hx | hx
      · subst hx
        exact hf y (h y (List.mem_cons_self y ys))
      · exact h x (List.mem_cons_of_mem y hx)
    · have hy' : q y = false := by
        cases hq : q y
        · rfl
        · exact absurd hq hy
      simp [updateFirst, hy'] at hx
      rcases hx with hx | hx
      · subst hx
        exact h x (List.mem_cons_self x ys)
      · exact updateFirst_forall q f P hf ys
          (fun z hz => h z (List.mem_cons_of_mem y hz)) x hx

/-- Like `updateFirst_forall`, but the update function need only preserve the
invariant on the element the scan actually reaches: the first element
satisfying `q`, which is exactly what `find?` returns. -/
theorem updateFirst_forall_found {α : Type} (q : α → Bool) (f : α → α) (P : α → Prop)
    (a : α) (hfa : P a → P (f a)) :
    ∀ (l : List α), l.find? q = some a → (∀ x ∈ l, P x) → ∀ x ∈ updateFirst q f l, P x
  | [], hfind, _, x, hx => by simp at hfind
  | y :: ys, hfind, h, x, hx => by
    by_cases hy : q y = true
    · have hya : y = a := by
        simp [List.find?_cons, hy] at hfind
        exact hfind
      subst hya
      simp [updateFirst, hy] at hx
      rcases hx with hx | hx
      · subst hx
        exact hfa (h y (List.mem_cons_self y ys))
      · exact h x (List.mem_cons_of_mem y hx)
    · have hy' : q y = false := by
        cases hq : q y
        · rfl
        · exact absurd hq hy
      have hfind' : ys.find? q = some a := by
        simpa [List.find?_cons, hy'] using hfind
      simp [updateFirst, hy'] at hx
      rcases hx with hx | hx
      · subst hx
        exact h x (List.mem_cons_self x ys)
      · exact updateFirst_forall_found q f P a hfa ys hfind'
          (fun z hz => h z (List.mem_cons_of_mem y hz)) x hx

/-! ### Player accessor lemmas -/

theorem getRes_setRes_same (p : Player) (r : ResourceType) (v : Int) :
    (p.setRes r v).getRes r = v := by
  cases r <;> rfl

theorem getRes_setRes_other (p : Player) (r r' : ResourceType) (v : Int)
    (h : r' ≠ r) : (p.setRes r' v).getRes r = p.getRes r := by
  cases r <;> cases r' <;> first
    | rfl
    | exact absurd rfl h

theorem setRes_id (p : Player) (r : ResourceType) (v : Int) :
    (p.setRes r v).id = p.id := by
  cases r <;> rfl

/-- Resource counter of the player a scan for `id == pid` finds (0 when no
player matches, mirroring the source's skipped credit). -/
def getPlayerRes (ps : List Player) (pid : Nat) (r : ResourceType) : Int :=
  match ps.find? fun p => p.id == pid with
  | some p => p.getRes r
  | none => 0

/-- Victory-point counter of the player a scan for `id == pid` finds. -/
def getPlayerVP (ps : List Player) (pid : Nat) : Int :=
  match ps.find? fun p => p.id == pid with
  | some p => p.victory_points
  | none => 0

def playerExists (ps : List Player) (pid : Nat) : Bool :=
  (ps.find? fun p => p.id == pid).isSome

/-! ### Concrete fixtures used by witnesses and counterexamples -/

def mkPlayerFx (pid uid tord : Nat) (host : Bool) : Player :=
  { id := pid, user_id := uid, color := PlayerColor.gold, turn_order := tord,
    victory_points := 0, is_host := host, is_active := true,
    gold := 0, stone := 0, cotton := 0, maize := 0, wood := 0,
    warrior_cards := 0, victory_cards := 0,
    has_longest_path := false, has_largest_army := false, development_cards := [] }

/-- A two-player game still waiting for players. -/
def gJoinW : Game :=
  { id := 1, max_players := 4, status := GameStatus.waiting, current_turn := 0,
    winner_id := none,
    players := [mkPlayerFx 1 10 0 true, mkPlayerFx 2 20 1 false],
    game_state := none }

/-- A waiting game whose player count already equals `max_players`. -/
def gJoinFull : Game :=
  { id := 2, max_players := 3, status := GameStatus.waiting, current_turn := 0,
    winner_id := none,
    players := [mkPlayerFx 1 10 0 true, mkPlayerFx 2 20 1 false, mkPlayerFx 3 30 2 false],
    game_state := none }

/-! ### C7: joinGame -/

/-- C7 (amended): joinGame fails when status is not WAITING or when the
player count already equals (or exceeds) maxPlayers — including for a user
who is already a player; it is idempotent for an existing player only while
the game is WAITING and below capacity, returning the scanned-first matching
Player with the game unchanged; a fresh joiner receives the first palette
color not already in use and turn-order index equal to the prior player
count, with zeroed resources. -/
theorem c7_join_game (g : Game) (userId newPlayerId : Nat) :
    (g.status ≠ GameStatus.waiting → join_game g userId newPlayerId = (none, g)) ∧
    (g.max_players ≤ g.players.length → join_game g userId newPlayerId = (none, g)) ∧
    (g.status = GameStatus.waiting → g.players.length < g.max_players →
      ∀ p0, g.players.find? (fun p => p.user_id == userId) = some p0 →
        join_game g userId newPlayerId = (some p0, g)) ∧
    (g.status = GameStatus.waiting → g.players.length < g.max_players →
      g.players.find? (fun p => p.user_id == userId) = none →
      ∀ c rest, AVAILABLE_COLORS.filter
          (fun c => ¬ (g.players.map Player.color).contains c) = c :: rest →
        ∃ newP, join_game g userId newPlayerId =
            (some newP, { g with players := g.players ++ [newP] }) ∧
          newP.user_id = userId ∧ newP.turn_order = g.players.length ∧
          newP.color = c ∧ newP.id = newPlayerId ∧
          (g.players.map Player.color).contains c = false ∧ c ∈ AVAILABLE_COLORS ∧
          newP.gold = 0 ∧ newP.stone = 0 ∧ newP.cotton = 0 ∧ newP.maize = 0 ∧
          newP.wood = 0) := by
  refine ⟨?_, ?_, ?_, ?_⟩
  · intro h
    simp [join_game, h]
  · intro h
    by_cases hs : g.status = GameStatus.waiting
    · simp [join_game, hs, h]
    · simp [join_game, hs]
  · intro hs hlt p0 hfind
    simp [join_game, hs, Nat.not_le.mpr hlt, hfind]
  · intro hs hlt hfind c rest hfilter
    have hfilter' := hfilter
    simp at hfilter'
    have hmem : c ∈ AVAILABLE_COLORS.filter
        (fun c => ¬ (g.players.map Player.color).contains c) := by
      rw [hfilter]
      exact List.mem_cons_self c rest
    refine ⟨{ id := newPlayerId, user_id := userId, color := c,
              turn_order := g.players.length, victory_points := 0,
              is_host := false, is_active := true,
              gold := 0, stone := 0, cotton := 0, maize := 0, wood := 0,
              warrior_cards := 0, victory_cards := 0,
              has_longest_path := false, has_largest_army := false,
              development_cards := [] }, ?_, rfl, rfl, rfl, rfl, ?_, ?_,
            rfl, rfl, rfl, rfl, rfl⟩
    · simp [join_game, hs, Nat.not_le.mpr hlt, hfind, hfilter']
    · have := List.of_mem_filter hmem
      simpa using this
    · exact List.mem_of_mem_filter hmem

/-- C7 (counterexample): in a WAITING game that is already at capacity, a
join request from a user who is already a player returns failure rather than
that user's existing Player — the capacity check precedes the idempotency
check in the source. -/
theorem c7_counterexample :
    gJoinFull.status = GameStatus.waiting ∧
    (∃ p ∈ gJoinFull.players, p.user_id = 10) ∧
    (join_game gJoinFull 10 99).1 = none := by
  refine ⟨rfl, ⟨mkPlayerFx 1 10 0 true, by decide, rfl⟩, by decide⟩

/-- C7 (witness): joining a below-capacity WAITING game as an existing user
returns that user's Player unchanged. -/
theorem c7_witness :
    join_game gJoinW 20 99 = (some (mkPlayerFx 2 20 1 false), gJoinW) :=
  (c7_join_game gJoinW 20 99).2.2.1 rfl (by decide) (mkPlayerFx 2 20 1 false) (by decide)

/-! ### C10: build and buyDevelopmentCard ignore the turn -/

def emptyBoardFx : Board :=
  { hexes := [], vertices := [], edges := [], ports := [], conquistador_position := 0 }

def p2Fx : Player :=
  { mkPlayerFx 2 20 1 false with stone := 1, wood := 1, gold := 1, cotton := 1, maize := 1 }

def gsBuyFx : GameState :=
  { board := emptyBoardFx,
    development_deck := [DevelopmentCardType.guerrero_naoma],
    last_dice_roll := [], game_log := [] }

/-- An ACTIVE two-player game where it is player 1's turn and player 2 can
afford everything. -/
def gBuyFx : Game :=
  { id := 3, max_players := 4, status := GameStatus.active, current_turn := 0,
    winner_id := none,
    players := [mkPlayerFx 1 10 0 true, p2Fx],
    game_state := some gsBuyFx }

/-- The same game with an exhausted development deck. -/
def gBuyEmptyFx : Game :=
  { gBuyFx with game_state := some { gsBuyFx with development_deck := [] } }

/-- C10 (amended): neither build nor buyDevelopmentCard reads the turn
pointer: in an ACTIVE game, any player in the player list who can afford the
fixed cost succeeds at build — for every value of `current_turn` — and
succeeds at buying a development card for every value of `current_turn`
provided the deck is also non-empty (with an empty deck the purchase fails
even for a player who can afford it). -/
theorem c10_no_turn_check (g : Game) (pid : Nat) (bt : BuildingType) (pos : Nat)
    (p : Player) (t : Nat)
    (hst : g.status = GameStatus.active)
    (hp : g.players.find? (fun x => x.id == pid) = some p) :
    (canAfford p (BUILDING_COSTS bt) = true →
      (build { g with current_turn := t } pid bt pos).1 = true) ∧
    (canAfford p DEVELOPMENT_CARD_COST = true →
      ∀ gs, g.game_state = some gs → gs.development_deck ≠ [] →
        ((buy_development_card { g with current_turn := t } pid).1).isSome = true) := by
  constructor
  · intro haff
    simp [build, hst, hp, haff]
  · intro haff gs hgs hdk
    have hlast : ∃ card, gs.development_deck.getLast? = some card := by
      cases hdkl : gs.development_deck.getLast? with
      | none =>
        exact absurd (List.getLast?_eq_none_iff.mp hdkl) hdk
      | some card => exact ⟨card, rfl⟩
    obtain ⟨card, hcard⟩ := hlast
    simp [buy_development_card, hst, hgs, hp, haff, hcard]

/-- C10 (counterexample): with an empty development deck, a player who
belongs to the ACTIVE game and can afford the card cost still fails to buy —
the claim's "can successfully build or buy" does not hold unconditionally
for the purchase half. -/
theorem c10_counterexample :
    gBuyEmptyFx.status = GameStatus.active ∧
    gBuyEmptyFx.players.find? (fun x => x.id == 2) = some p2Fx ∧
    canAfford p2Fx DEVELOPMENT_CARD_COST = true ∧
    (∃ cur ∈ gBuyEmptyFx.players,
      cur.turn_order = gBuyEmptyFx.current_turn % gBuyEmptyFx.players.length ∧
      cur.id ≠ 2) ∧
    (buy_development_card gBuyEmptyFx 2).1 = none := by
  refine ⟨rfl, by decide, by decide, ⟨mkPlayerFx 1 10 0 true, by decide, by decide, by decide⟩, by decide⟩

/-- C10 (witness): player 2 builds and buys while the turn pointer
(`current_turn = 0`, so `0 mod 2` selects player 1) rests with the opponent. -/
theorem c10_witness :
    (build { gBuyFx with current_turn := 0 } 2 BuildingType.camino 0).1 = true ∧
    ((buy_development_card { gBuyFx with current_turn := 0 } 2).1).isSome = true := by
  have h := c10_no_turn_check gBuyFx 2 BuildingType.camino 0 p2Fx 0 rfl (by decide)
  exact ⟨h.1 (by decide), h.2 (by decide) gsBuyFx rfl (by decide)⟩

/-! ### Shared lemmas on the mutating actions -/

theorem distribute_resources_status (g : Game) (t : Nat) :
    (distribute_resources g t).status = g.status := by
  unfold distribute_resources
  split <;> rfl

theorem distribute_resources_winner (g : Game) (t : Nat) :
    (distribute_resources g t).winner_id = g.winner_id := by
  unfold distribute_resources
  split <;> rfl

theorem roll_dice_status (g : Game) (pid d1 d2 : Nat) :
    ((roll_dice g pid d1 d2).2).status = g.status ∧
    ((roll_dice g pid d1 d2).2).winner_id = g.winner_id := by
  unfold roll_dice
  split
  · exact ⟨rfl, rfl⟩
  · split
    · exact ⟨rfl, rfl⟩
    · split
      · exact ⟨rfl, rfl⟩
      · cases hgs : g.game_state <;>
          simp [hgs, distribute_resources_status, distribute_resources_winner] <;>
          split <;>
          simp [distribute_resources_status, distribute_resources_winner]

theorem end_turn_status (g : Game) (pid : Nat) :
    ((end_turn g pid).2).status = g.status ∧
    ((end_turn g pid).2).winner_id = g.winner_id := by
  unfold end_turn
  split
  · exact ⟨rfl, rfl⟩
  · split
    · exact ⟨rfl, rfl⟩
    · split
      · exact ⟨rfl, rfl⟩
      · cases hgs : g.game_state <;> simp [hgs]

theorem find?_first {α : Type} (p : α → Bool) :
    ∀ (l : List α) (i : Nat) (hi : i < l.length),
      (∀ j (hj : j < i), p (l.get ⟨j, Nat.lt_trans hj hi⟩) = false) →
      p (l.get ⟨i, hi⟩) = true →
      l.find? p = some (l.get ⟨i, hi⟩)
  | [], i, hi, _, _ => by simp at hi
  | x :: xs, 0, hi, _, hp => by
    simp only [List.get] at hp ⊢
    simp [List.find?_cons, hp]
  | x :: xs, i + 1, hi, hfirst, hp => by
    have h0 : p x = false := hfirst 0 (Nat.succ_pos i)
    have ih := find?_first p xs i (Nat.lt_of_succ_lt_succ hi)
      (fun j hj => hfirst (j + 1) (Nat.succ_lt_succ hj)) hp
    simpa [List.find?_cons, h0] using ih

theorem check_victory_none (g : Game)
    (h : ∀ p ∈ g.players, total_points p < 10) : check_victory g = g := by
  have hfind : g.players.find? (fun p => 10 ≤ total_points p) = none := by
    rw [List.find?_eq_none]
    intro x hx
    simp [Int.not_le.mpr (h x hx)]
  simp [check_victory, hfind]

theorem check_victory_first (g : Game) (i : Nat) (hi : i < g.players.length)
    (hfirst : ∀ j (hj : j < i), total_points (g.players.get ⟨j, Nat.lt_trans hj hi⟩) < 10)
    (hwin : 10 ≤ total_points (g.players.get ⟨i, hi⟩)) :
    (check_victory g).status = GameStatus.finished ∧
    (check_victory g).winner_id = some (g.players.get ⟨i, hi⟩).user_id ∧
    (check_victory g).players = g.players := by
  have hfind : g.players.find? (fun p => 10 ≤ total_points p) =
      some (g.players.get ⟨i, hi⟩) := by
    apply find?_first
    · intro j hj
      have h' := hfirst j hj
      simp only [List.get_eq_getElem] at h'
      simp [Int.not_le.mpr h']
    · have h' := hwin
      simp only [List.get_eq_getElem] at h'
      simp [h']
  cases hgs : g.game_state <;> simp [check_victory, hfind, hgs]

/-! ### C5: victory evaluation -/

/-- An ACTIVE game in which the second player has reached 10 building
points. -/
def gVicFx : Game :=
  { id := 4, max_players := 4, status := GameStatus.active, current_turn := 0,
    winner_id := none,
    players := [mkPlayerFx 1 10 0 true, { mkPlayerFx 2 20 1 false with victory_points := 10 }],
    game_state := none }

/-- C5: a player's total is building victory points plus victory-point cards
plus 2 per achievement flag (`total_points`); `rollDice` and `endTurn` never
change the status (in particular never to FINISHED); victory evaluation is a
no-op when no player's total reaches 10, and otherwise finishes the game
recording as winner the first player in iteration order whose total reaches
10 — evaluation stops there, regardless of later players' totals. -/
theorem c5_victory_evaluation (g : Game) (pid d1 d2 i : Nat) :
    ((roll_dice g pid d1 d2).2).status = g.status ∧
    ((end_turn g pid).2).status = g.status ∧
    ((∀ p ∈ g.players, total_points p < 10) → check_victory g = g) ∧
    (∀ (hi : i < g.players.length),
      (∀ j (hj : j < i), total_points (g.players.get ⟨j, Nat.lt_trans hj hi⟩) < 10) →
      10 ≤ total_points (g.players.get ⟨i, hi⟩) →
      (check_victory g).status = GameStatus.finished ∧
      (check_victory g).winner_id = some (g.players.get ⟨i, hi⟩).user_id ∧
      (check_victory g).players = g.players) :=
  ⟨(roll_dice_status g pid d1 d2).1, (end_turn_status g pid).1,
   check_victory_none g,
   fun hi h1 h2 => check_victory_first g i hi h1 h2⟩

/-- C5 (witness): in `gVicFx` the second player holds 10 points; victory
evaluation finishes the game with winner user 20. -/
theorem c5_witness :
    (check_victory gVicFx).status = GameStatus.finished ∧
    (check_victory gVicFx).winner_id = some 20 ∧
    (check_victory gVicFx).players = gVicFx.players := by
  have h := (c5_victory_evaluation gVicFx 1 3 4 1).2.2.2 (by decide)
    (fun j hj => by
      have hj0 : j = 0 := by omega
      subst hj0
      show total_points (gVicFx.players.get ⟨0, by decide⟩) < 10
      decide)
    (by decide)
  simpa using h

/-! ### Lemmas on `build` -/

/-- The amount of resource `r` in a fixed cost table (0 when the resource is
not part of the cost). -/
def costOf (costs : List (ResourceType × Int)) (r : ResourceType) : Int :=
  ((costs.find? fun ra => ra.1 == r).map Prod.snd).getD 0

theorem setRes_vp (p : Player) (r : ResourceType) (v : Int) :
    (p.setRes r v).victory_points = p.victory_points := by
  cases r <;> rfl

theorem deductCosts_getRes (p : Player) (bt : BuildingType) (r : ResourceType) :
    (deductCosts p (BUILDING_COSTS bt)).getRes r =
      p.getRes r - costOf (BUILDING_COSTS bt) r := by
  cases bt <;> cases r <;>
    simp [deductCosts, BUILDING_COSTS, costOf, Player.setRes, Player.getRes]

theorem deductCosts_vp (p : Player) (costs : List (ResourceType × Int)) :
    (deductCosts p costs).victory_points = p.victory_points := by
  induction costs generalizing p with
  | nil => rfl
  | cons c cs ih =>
    simp [deductCosts, List.foldl_cons] at ih ⊢
    rw [ih, setRes_vp]

theorem deductCosts_id (p : Player) (costs : List (ResourceType × Int)) :
    (deductCosts p costs).id = p.id := by
  induction costs generalizing p with
  | nil => rfl
  | cons c cs ih =>
    simp [deductCosts, List.foldl_cons] at ih ⊢
    rw [ih, setRes_id]

theorem check_victory_players (g : Game) :
    (check_victory g).players = g.players ∧
    (∀ gs, g.game_state = some gs → ∃ gs', (check_victory g).game_state = some gs' ∧
      gs'.board = gs.board ∧ gs'.development_deck = gs.development_deck ∧
      gs'.last_dice_roll = gs.last_dice_roll) := by
  unfold check_victory
  split
  · exact ⟨rfl, fun gs h => ⟨gs, h, rfl, rfl, rfl⟩⟩
  · cases hgs : g.game_state with
    | none => simp [hgs]
    | some gs => simp [hgs]

theorem build_of_fail (g : Game) (pid : Nat) (bt : BuildingType) (pos : Nat) :
    (build g pid bt pos).1 = false → (build g pid bt pos).2 = g := by
  unfold build
  split
  · intro _; rfl
  · split
    · intro _; rfl
    · split
      · intro _; rfl
      · intro h; simp at h

theorem getPlayerRes_updateFirst (ps : List Player) (pid : Nat) (p : Player)
    (f : Player → Player) (hid : ∀ q, (f q).id = q.id)
    (hp : ps.find? (fun x => x.id == pid) = some p) (r : ResourceType) :
    getPlayerRes (updateFirst (fun x => x.id == pid) f ps) pid r = (f p).getRes r := by
  unfold getPlayerRes
  rw [find?_updateFirst_same _ _ (fun y => by simp [hid]) ps, hp]
  rfl

theorem getPlayerVP_updateFirst (ps : List Player) (pid : Nat) (p : Player)
    (f : Player → Player) (hid : ∀ q, (f q).id = q.id)
    (hp : ps.find? (fun x => x.id == pid) = some p) :
    getPlayerVP (updateFirst (fun x => x.id == pid) f ps) pid = (f p).victory_points := by
  unfold getPlayerVP
  rw [find?_updateFirst_same _ _ (fun y => by simp [hid]) ps, hp]
  rfl

theorem vpAdd_getRes (q : Player) (d : Int) (r : ResourceType) :
    ({ q with victory_points := q.victory_points + d } : Player).getRes r = q.getRes r := by
  cases r <;> rfl

theorem vpAdd_id (q : Player) (d : Int) :
    ({ q with victory_points := q.victory_points + d } : Player).id = q.id := rfl

theorem build_success_players (g : Game) (pid pos : Nat) (bt : BuildingType) (p : Player)
    (hst : g.status = GameStatus.active)
    (hp : g.players.find? (fun x => x.id == pid) = some p)
    (haff : canAfford p (BUILDING_COSTS bt) = true) (gs : GameState)
    (hgs : g.game_state = some gs) :
    (build g pid bt pos).2.players =
      updateFirst (fun x => x.id == pid)
        (fun q => { q with victory_points :=
            q.victory_points + (apply_placement gs.board pid bt pos).2 })
        (updateFirst (fun x => x.id == pid)
          (fun q => deductCosts q (BUILDING_COSTS bt)) g.players) := by
  simp [build, hst, hp, haff, hgs, (check_victory_players _).1]

theorem build_success_players_none (g : Game) (pid pos : Nat) (bt : BuildingType) (p : Player)
    (hst : g.status = GameStatus.active)
    (hp : g.players.find? (fun x => x.id == pid) = some p)
    (haff : canAfford p (BUILDING_COSTS bt) = true)
    (hgs : g.game_state = none) :
    (build g pid bt pos).2.players =
      updateFirst (fun x => x.id == pid)
        (fun q => deductCosts q (BUILDING_COSTS bt)) g.players := by
  simp [build, hst, hp, haff, hgs, (check_victory_players _).1]

theorem build_success_gs (g : Game) (pid pos : Nat) (bt : BuildingType) (p : Player)
    (hst : g.status = GameStatus.active)
    (hp : g.players.find? (fun x => x.id == pid) = some p)
    (haff : canAfford p (BUILDING_COSTS bt) = true) (gs : GameState)
    (hgs : g.game_state = some gs) :
    ∃ gs', (build g pid bt pos).2.game_state = some gs' ∧
      gs'.board = (apply_placement gs.board pid bt pos).1 := by
  have hb : (build g pid bt pos).2 =
      check_victory { g with
        players := updateFirst (fun x => x.id == pid)
          (fun q => { q with victory_points :=
              q.victory_points + (apply_placement gs.board pid bt pos).2 })
          (updateFirst (fun x => x.id == pid)
            (fun q => deductCosts q (BUILDING_COSTS bt)) g.players),
        game_state := some { gs with
          board := (apply_placement gs.board pid bt pos).1,
          game_log := gs.game_log ++ [LogEntry.build_entry pid bt pos] } } := by
    simp [build, hst, hp, haff, hgs]
  have h := (check_victory_players { g with
      players := updateFirst (fun x => x.id == pid)
        (fun q => { q with victory_points :=
            q.victory_points + (apply_placement gs.board pid bt pos).2 })
        (updateFirst (fun x => x.id == pid)
          (fun q => deductCosts q (BUILDING_COSTS bt)) g.players),
      game_state := some { gs with
        board := (apply_placement gs.board pid bt pos).1,
        game_log := gs.game_log ++ [LogEntry.build_entry pid bt pos] } }).2
    { gs with board := (apply_placement gs.board pid bt pos).1,
              game_log := gs.game_log ++ [LogEntry.build_entry pid bt pos] } rfl
  obtain ⟨gs2, h1, h2, _, _⟩ := h
  rw [hb]
  exact ⟨gs2, h1, by rw [h2]⟩

theorem build_success_res (g : Game) (pid pos : Nat) (bt : BuildingType) (p : Player)
    (hst : g.status = GameStatus.active)
    (hp : g.players.find? (fun x => x.id == pid) = some p)
    (haff : canAfford p (BUILDING_COSTS bt) = true) :
    (build g pid bt pos).1 = true ∧
    ∀ r, getPlayerRes ((build g pid bt pos).2.players) pid r =
      p.getRes r - costOf (BUILDING_COSTS bt) r := by
  constructor
  · simp [build, hst, hp, haff]
  · intro r
    cases hgs : g.game_state with
    | none =>
      rw [build_success_players_none g pid pos bt p hst hp haff hgs]
      rw [getPlayerRes_updateFirst g.players pid p _ (fun q => deductCosts_id q _) hp r]
      exact deductCosts_getRes p bt r
    | some gs =>
      rw [build_success_players g pid pos bt p hst hp haff gs hgs]
      have h1 : (updateFirst (fun x => x.id == pid)
          (fun q => deductCosts q (BUILDING_COSTS bt)) g.players).find?
            (fun x => x.id == pid) = some (deductCosts p (BUILDING_COSTS bt)) := by
        rw [find?_updateFirst_same _ _ (fun y => by simp [deductCosts_id]) g.players, hp]
        rfl
      rw [getPlayerRes_updateFirst _ pid (deductCosts p (BUILDING_COSTS bt)) _
        (fun q => vpAdd_id q _) h1 r]
      rw [vpAdd_getRes]
      exact deductCosts_getRes p bt r

/-! ### Lemmas on `apply_placement` -/

theorem apply_placement_camino_blocked (b : Board) (pid pos : Nat)
    (h : ∀ e ∈ b.edges, e.id = pos → e.has_road = true) :
    apply_placement b pid BuildingType.camino pos = (b, 0) := by
  have hall : ∀ x ∈ b.edges, ((fun e => e.id == pos && !e.has_road) x) = false := by
    intro e he
    by_cases hid : e.id = pos
    · simp [hid, h e he hid]
    · simp [hid]
  unfold apply_placement
  rw [updateFirst_of_forall_not _ _ b.edges hall]

theorem apply_placement_vertex_missing (b : Board) (pid pos : Nat) (bt : BuildingType)
    (hbt : bt ≠ BuildingType.camino)
    (hv : b.vertices.find? (fun w => w.id == pos) = none) :
    apply_placement b pid bt pos = (b, 0) := by
  cases bt with
  | camino => exact absurd rfl hbt
  | bohio => simp [apply_placement, hv]
  | templo => simp [apply_placement, hv]

theorem apply_placement_bohio_occupied (b : Board) (pid pos : Nat) (v : Vertex)
    (hv : b.vertices.find? (fun w => w.id == pos) = some v)
    (hb : v.building ≠ none) :
    apply_placement b pid BuildingType.bohio pos = (b, 0) := by
  simp [apply_placement, hv, hb]

theorem apply_placement_templo_bohio (b : Board) (pid pos : Nat) (v : Vertex)
    (hv : b.vertices.find? (fun w => w.id == pos) = some v)
    (hb : v.building = some BuildingType.bohio) :
    apply_placement b pid BuildingType.templo pos =
      ({ b with
          vertices := updateFirst (fun w => w.id == pos)
                        (fun w => { w with building := some BuildingType.templo })
                        b.vertices },
       1) := by
  simp [apply_placement, hv, hb]

theorem apply_placement_templo_other (b : Board) (pid pos : Nat) (v : Vertex)
    (hv : b.vertices.find? (fun w => w.id == pos) = some v)
    (hb : v.building ≠ some BuildingType.bohio) :
    apply_placement b pid BuildingType.templo pos = (b, 0) := by
  simp [apply_placement, hv, hb]

/-! ### C1: build-cost accounting -/

def p1BuildFx : Player := { mkPlayerFx 1 10 0 true with stone := 1, wood := 1 }

/-- An ACTIVE game whose only edge (id 0) already carries a road. -/
def gBuildFx : Game :=
  { id := 5, max_players := 4, status := GameStatus.active, current_turn := 0,
    winner_id := none,
    players := [p1BuildFx],
    game_state := some
      { board := { hexes := [], vertices := [],
                   edges := [{ id := 0, q := 0, r := 0, direction := 0,
                               has_road := true, player_id := some 9 }],
                   ports := [], conquistador_position := 0 },
        development_deck := [], last_dice_roll := [], game_log := [] } }

/-- C1 (amended): a failed build call (wrong status, unknown player, or
unaffordable cost) leaves the whole game byte-for-byte unchanged; but a build
call by an ACTIVE-game participant who can afford the cost always returns
success and deducts exactly the building's fixed cost — even when the
placement is invalid (edge already roaded, vertex occupied, temple without a
settlement, or an unknown position id), in which case the board is left
unchanged while the cost is still taken. -/
theorem c1_build_cost_atomicity (g : Game) (pid pos : Nat) (bt : BuildingType) :
    ((build g pid bt pos).1 = false → (build g pid bt pos).2 = g) ∧
    (∀ p, g.players.find? (fun x => x.id == pid) = some p →
      g.status = GameStatus.active →
      canAfford p (BUILDING_COSTS bt) = true →
      (build g pid bt pos).1 = true ∧
      (∀ r, getPlayerRes ((build g pid bt pos).2.players) pid r =
        p.getRes r - costOf (BUILDING_COSTS bt) r) ∧
      (∀ gs, g.game_state = some gs →
        ((bt = BuildingType.camino ∧ ∀ e ∈ gs.board.edges, e.id = pos → e.has_road = true) ∨
         (bt ≠ BuildingType.camino ∧
           gs.board.vertices.find? (fun w => w.id == pos) = none) ∨
         (∃ v, bt = BuildingType.bohio ∧
           gs.board.vertices.find? (fun w => w.id == pos) = some v ∧ v.building ≠ none) ∨
         (∃ v, bt = BuildingType.templo ∧
           gs.board.vertices.find? (fun w => w.id == pos) = some v ∧
           v.building ≠ some BuildingType.bohio)) →
        ∃ gs', (build g pid bt pos).2.game_state = some gs' ∧ gs'.board = gs.board)) := by
  refine ⟨build_of_fail g pid bt pos, ?_⟩
  intro p hp hst haff
  refine ⟨(build_success_res g pid pos bt p hst hp haff).1,
    (build_success_res g pid pos bt p hst hp haff).2, ?_⟩
  intro gs hgs hinv
  obtain ⟨gs', h1, h2⟩ := build_success_gs g pid pos bt p hst hp haff gs hgs
  refine ⟨gs', h1, ?_⟩
  rw [h2]
  rcases hinv with ⟨hbt, hall⟩ | ⟨hbt, hnone⟩ | ⟨v, hbt, hv, hb⟩ | ⟨v, hbt, hv, hb⟩
  · subst hbt
    rw [apply_placement_camino_blocked gs.board pid pos hall]
  · rw [apply_placement_vertex_missing gs.board pid pos bt hbt hnone]
  · subst hbt
    rw [apply_placement_bohio_occupied gs.board pid pos v hv hb]
  · subst hbt
    rw [apply_placement_templo_other gs.board pid pos v hv hb]

/-- C1 (counterexample): building a road on the already-roaded edge 0 with an
exact-cost purse returns success and deducts the cost — the claim's "the call
fails and the resource counters are byte-for-byte unchanged" is false. -/
theorem c1_counterexample :
    (∀ e ∈ [({ id := 0, q := 0, r := 0, direction := 0, has_road := true,
               player_id := some 9 } : Edge)], e.id = 0 → e.has_road = true) ∧
    (build gBuildFx 1 BuildingType.camino 0).1 = true ∧
    getPlayerRes gBuildFx.players 1 ResourceType.stone = 1 ∧
    getPlayerRes ((build gBuildFx 1 BuildingType.camino 0).2.players) 1
      ResourceType.stone = 0 := by
  refine ⟨by decide, by decide, by decide, by decide⟩

/-- C1 (witness): the amended theorem applied to the concrete game: the
blocked-road build succeeds, deducts exactly the camino cost, and leaves the
board unchanged. -/
theorem c1_witness :
    (build gBuildFx 1 BuildingType.camino 0).1 = true ∧
    getPlayerRes ((build gBuildFx 1 BuildingType.camino 0).2.players) 1
        ResourceType.stone =
      p1BuildFx.getRes ResourceType.stone -
        costOf (BUILDING_COSTS BuildingType.camino) ResourceType.stone := by
  have h := (c1_build_cost_atomicity gBuildFx 1 0 BuildingType.camino).2 p1BuildFx
    (by decide) rfl (by decide)
  exact ⟨h.1, h.2.1 ResourceType.stone⟩

/-! ### C2: temple upgrades -/

def vTemploFx : Vertex :=
  { id := 5, q := 0, r := 0, building := some BuildingType.bohio,
    player_id := some 1, is_port := false, port_type := none }

def p2TemploFx : Player :=
  { mkPlayerFx 2 20 1 false with gold := 3, maize := 2 }

def gsTemploFx : GameState :=
  { board := { hexes := [], vertices := [vTemploFx], edges := [], ports := [],
               conquistador_position := 0 },
    development_deck := [], last_dice_roll := [], game_log := [] }

/-- An ACTIVE game where vertex 5 holds player 1's settlement and player 2
can afford a temple. -/
def gTemploFx : Game :=
  { id := 6, max_players := 4, status := GameStatus.active, current_turn := 0,
    winner_id := none,
    players := [mkPlayerFx 1 10 0 true, p2TemploFx],
    game_state := some gsTemploFx }

/-- C2 (amended): in an ACTIVE game, build(templo, V) by an affordable
participant succeeds whenever the targeted vertex currently holds a bohio —
regardless of who owns it (the source never checks the owner); the upgraded
vertex keeps its previous owner while the builder gains the victory point.
On a vertex without a bohio the call still returns success with the cost
deducted, but the board and the builder's victory points are unchanged. -/
theorem c2_templo_upgrade (g : Game) (pid pos : Nat) (p : Player) (gs : GameState)
    (v : Vertex)
    (hst : g.status = GameStatus.active)
    (hgs : g.game_state = some gs)
    (hp : g.players.find? (fun x => x.id == pid) = some p)
    (haff : canAfford p (BUILDING_COSTS BuildingType.templo) = true)
    (hv : gs.board.vertices.find? (fun w => w.id == pos) = some v) :
    (build g pid BuildingType.templo pos).1 = true ∧
    (v.building = some BuildingType.bohio →
      ∃ gs', (build g pid BuildingType.templo pos).2.game_state = some gs' ∧
        gs'.board.vertices.find? (fun w => w.id == pos) =
          some { v with building := some BuildingType.templo } ∧
        getPlayerVP ((build g pid BuildingType.templo pos).2.players) pid =
          p.victory_points + 1) ∧
    (v.building ≠ some BuildingType.bohio →
      ∃ gs', (build g pid BuildingType.templo pos).2.game_state = some gs' ∧
        gs'.board.vertices = gs.board.vertices ∧
        getPlayerVP ((build g pid BuildingType.templo pos).2.players) pid =
          p.victory_points) := by
  have hfold :
      getPlayerVP ((build g pid BuildingType.templo pos).2.players) pid =
        p.victory_points + (apply_placement gs.board pid BuildingType.templo pos).2 := by
    rw [build_success_players g pid pos BuildingType.templo p hst hp haff gs hgs]
    have h1 : (updateFirst (fun x => x.id == pid)
        (fun q => deductCosts q (BUILDING_COSTS BuildingType.templo)) g.players).find?
          (fun x => x.id == pid) =
        some (deductCosts p (BUILDING_COSTS BuildingType.templo)) := by
      rw [find?_updateFirst_same _ _ (fun y => by simp [deductCosts_id]) g.players, hp]
      rfl
    rw [getPlayerVP_updateFirst _ pid (deductCosts p (BUILDING_COSTS BuildingType.templo))
      _ (fun q => vpAdd_id q _) h1]
    simp [deductCosts_vp]
  refine ⟨(build_success_res g pid pos BuildingType.templo p hst hp haff).1, ?_, ?_⟩
  · intro hb
    obtain ⟨gs', h1, h2⟩ :=
      build_success_gs g pid pos BuildingType.templo p hst hp haff gs hgs
    refine ⟨gs', h1, ?_, ?_⟩
    · rw [h2, apply_placement_templo_bohio gs.board pid pos v hv hb]
      exact (find?_updateFirst_same _ _ (fun y => by simp) gs.board.vertices).trans
        (by rw [hv]; rfl)
    · rw [hfold, apply_placement_templo_bohio gs.board pid pos v hv hb]
  · intro hb
    obtain ⟨gs', h1, h2⟩ :=
      build_success_gs g pid pos BuildingType.templo p hst hp haff gs hgs
    refine ⟨gs', h1, ?_, ?_⟩
    · rw [h2, apply_placement_templo_other gs.board pid pos v hv hb]
    · rw [hfold, apply_placement_templo_other gs.board pid pos v hv hb]
      simp

/-- C2 (counterexample): player 2 upgrades player 1's settlement at vertex 5:
the call succeeds and the vertex becomes a temple still owned by player 1 —
refuting "succeeds only when the vertex holds a settlement owned by the
acting player; otherwise fails leaving all state unchanged". -/
theorem c2_counterexample :
    gTemploFx.status = GameStatus.active ∧
    (gTemploFx.game_state.map fun gs => gs.board.vertices) =
      some [{ id := 5, q := 0, r := 0, building := some BuildingType.bohio,
              player_id := some 1, is_port := false, port_type := none }] ∧
    (build gTemploFx 2 BuildingType.templo 5).1 = true ∧
    ((build gTemploFx 2 BuildingType.templo 5).2.game_state.map
        fun gs => gs.board.vertices) =
      some [{ id := 5, q := 0, r := 0, building := some BuildingType.templo,
              player_id := some 1, is_port := false, port_type := none }] ∧
    getPlayerVP ((build gTemploFx 2 BuildingType.templo 5).2.players) 2 = 1 := by
  refine ⟨by decide, by decide, by decide, by decide, by decide⟩

/-- C2 (witness): the amended theorem applied to the cross-owner upgrade. -/
theorem c2_witness :
    (build gTemploFx 2 BuildingType.templo 5).1 = true ∧
    ∃ gs', (build gTemploFx 2 BuildingType.templo 5).2.game_state = some gs' ∧
      gs'.board.vertices.find? (fun w => w.id == 5) =
        some { vTemploFx with building := some BuildingType.templo } ∧
      getPlayerVP ((build gTemploFx 2 BuildingType.templo 5).2.players) 2 =
        p2TemploFx.victory_points + 1 := by
  have h := c2_templo_upgrade gTemploFx 2 5 p2TemploFx gsTemploFx vTemploFx
    rfl rfl (by decide) (by decide) (by decide)
  exact ⟨h.1, h.2.1 rfl⟩

/-! ### C6: resource distribution -/

/-- Resources credited to player `pid` by one built vertex (the source's
inner loop credits every built vertex with a truthy, existing owner, with no
hex-vertex adjacency check). -/
def vertexGain (pid : Nat) (v : Vertex) : Int :=
  match v.building, v.player_id with
  | some b, some q => if q = pid ∧ q ≠ 0 then creditAmount b else 0
  | _, _ => 0

/-- Resources of kind `r` credited to `pid` by one hex for a given roll. -/
def hexGain (vs : List Vertex) (diceTotal pid : Nat) (r : ResourceType) (h : Hex) : Int :=
  if h.number_token == some diceTotal && !h.has_conquistador then
    match get_terrain_resource h.terrain with
    | some res => if res = r then (vs.map (vertexGain pid)).sum else 0
    | none => 0
  else 0

theorem playerExists_credit (ps : List Player) (v : Vertex) (res : ResourceType)
    (pid : Nat) : playerExists (creditForVertex ps v res) pid = playerExists ps pid := by
  unfold creditForVertex
  cases hb : v.building with
  | none => rfl
  | some b =>
    cases hq : v.player_id with
    | none => rfl
    | some q =>
      by_cases hq0 : q = 0
      · simp [hq0]
      · dsimp only
        rw [if_pos hq0]
        unfold playerExists
        by_cases hqp : q = pid
        · subst hqp
          rw [find?_updateFirst_same _ _ (fun y => by simp [setRes_id]) ps]
          cases ps.find? fun x => x.id == q <;> rfl
        · rw [find?_updateFirst_other _ _ _ (fun y => by simp [setRes_id])
            (fun y hy => ?_) ps]
          simp at hy ⊢
          omega

theorem getPlayerRes_credit (ps : List Player) (v : Vertex) (res r : ResourceType)
    (pid : Nat) (hex : playerExists ps pid = true) :
    getPlayerRes (creditForVertex ps v res) pid r =
      getPlayerRes ps pid r + (if res = r then vertexGain pid v else 0) := by
  unfold creditForVertex vertexGain
  cases hb : v.building with
  | none => simp
  | some b =>
    cases hq : v.player_id with
    | none => simp
    | some q =>
      by_cases hq0 : q = 0
      · subst hq0
        simp
      · dsimp only
        rw [if_pos hq0]
        by_cases hqp : q = pid
        · subst hqp
          obtain ⟨p, hp⟩ := Option.isSome_iff_exists.mp hex
          have hres := getPlayerRes_updateFirst ps q p
            (fun x => x.setRes res (x.getRes res + creditAmount b))
            (fun x => setRes_id x res _) hp r
          rw [hres]
          have hget : getPlayerRes ps q r = p.getRes r := by
            unfold getPlayerRes
            rw [hp]
          rw [hget]
          by_cases hr : res = r
          · subst hr
            rw [getRes_setRes_same]
            simp [hq0]
          · rw [getRes_setRes_other _ _ _ _ hr]
            simp [hr]
        · unfold getPlayerRes
          rw [find?_updateFirst_other _ _ _ (fun y => by simp [setRes_id])
            (fun y hy => ?_) ps]
          · have hnot : ¬ (q = pid ∧ q ≠ 0) := fun hcon => hqp hcon.1
            simp [hnot]
          · simp at hy ⊢
            omega

/-- One hex step of the `_distribute_resources` fold. -/
def distStep (vs : List Vertex) (total : Nat) : List Player → Hex → List Player :=
  fun ps hex =>
    if hex.number_token == some total && !hex.has_conquistador then
      match get_terrain_resource hex.terrain with
      | none => ps
      | some res => vs.foldl (fun qs v => creditForVertex qs v res) ps
    else ps

theorem distribute_resources_eq (g : Game) (total : Nat) (gs : GameState)
    (hgs : g.game_state = some gs) :
    (distribute_resources g total).players =
      gs.board.hexes.foldl (distStep gs.board.vertices total) g.players := by
  unfold distribute_resources distStep
  rw [hgs]

theorem playerExists_creditFold (vs : List Vertex) (res : ResourceType) (pid : Nat) :
    ∀ ps : List Player,
      playerExists (vs.foldl (fun qs v => creditForVertex qs v res) ps) pid =
        playerExists ps pid := by
  induction vs with
  | nil => intro ps; rfl
  | cons v vs ih =>
    intro ps
    rw [List.foldl_cons, ih, playerExists_credit]

theorem getPlayerRes_creditFold (vs : List Vertex) (res r : ResourceType) (pid : Nat) :
    ∀ ps : List Player, playerExists ps pid = true →
      getPlayerRes (vs.foldl (fun qs v => creditForVertex qs v res) ps) pid r =
        getPlayerRes ps pid r +
          (if res = r then (vs.map (vertexGain pid)).sum else 0) := by
  induction vs with
  | nil => intro ps _; simp
  | cons v vs ih =>
    intro ps hex
    rw [List.foldl_cons]
    rw [ih (creditForVertex ps v res) (by rw [playerExists_credit]; exact hex)]
    rw [getPlayerRes_credit ps v res r pid hex]
    by_cases hr : res = r
    · simp [hr]
      ring
    · simp [hr]

theorem playerExists_distStep (vs : List Vertex) (total pid : Nat) :
    ∀ (hs : List Hex) (ps : List Player),
      playerExists (hs.foldl (distStep vs total) ps) pid = playerExists ps pid := by
  intro hs
  induction hs with
  | nil => intro ps; rfl
  | cons h hs ih =>
    intro ps
    rw [List.foldl_cons, ih]
    unfold distStep
    by_cases hcond : (h.number_token == some total && !h.has_conquistador) = true
    · rw [if_pos hcond]
      cases hterr : get_terrain_resource h.terrain
      · rfl
      · rw [playerExists_creditFold]
    · rw [if_neg hcond]

theorem getPlayerRes_distFold (vs : List Vertex) (total pid : Nat) (r : ResourceType) :
    ∀ (hs : List Hex) (ps : List Player), playerExists ps pid = true →
      getPlayerRes (hs.foldl (distStep vs total) ps) pid r =
        getPlayerRes ps pid r + (hs.map (hexGain vs total pid r)).sum := by
  intro hs
  induction hs with
  | nil => intro ps _; simp
  | cons h hs ih =>
    intro ps hex
    rw [List.foldl_cons]
    have hstep : playerExists (distStep vs total ps h) pid = true := by
      unfold distStep
      by_cases hcond : (h.number_token == some total && !h.has_conquistador) = true
      · rw [if_pos hcond]
        cases hterr : get_terrain_resource h.terrain
        · exact hex
        · rw [playerExists_creditFold]; exact hex
      · rw [if_neg hcond]; exact hex
    rw [ih (distStep vs total ps h) hstep]
    have hone : getPlayerRes (distStep vs total ps h) pid r =
        getPlayerRes ps pid r + hexGain vs total pid r h := by
      unfold distStep hexGain
      by_cases hcond : (h.number_token == some total && !h.has_conquistador) = true
      · rw [if_pos hcond, if_pos hcond]
        cases hterr : get_terrain_resource h.terrain
        · simp
        · rw [getPlayerRes_creditFold vs _ r pid ps hex]
      · rw [if_neg hcond, if_neg hcond]
        simp
    rw [hone, List.map_cons, List.sum_cons]
    ring

/-- C6: rolling a 7 distributes nothing (the distribution step is skipped
entirely, so the player list is untouched); on any other successful roll by
the current player, each player's counter of resource `r` grows by exactly
the sum, over the hexes whose number token equals the rolled total and which
do not hold the conquistador and whose terrain produces `r`, of 1 per
scanned built bohio and 2 per templo whose (truthy) owner is that player —
the source scans every built vertex, not just hex-adjacent ones, and
multiple matching hexes contribute independently. -/
theorem c6_roll_distribution (g : Game) (pidRoll d1 d2 : Nat) (cur : Player) :
    (d1 + d2 = 7 → ((roll_dice g pidRoll d1 d2).2).players = g.players) ∧
    (∀ (gs : GameState) (pid : Nat) (r : ResourceType),
      g.status = GameStatus.active →
      g.players.find?
        (fun p => p.turn_order == g.current_turn % g.players.length) = some cur →
      cur.id = pidRoll →
      g.game_state = some gs →
      d1 + d2 ≠ 7 →
      playerExists g.players pid = true →
      getPlayerRes ((roll_dice g pidRoll d1 d2).2.players) pid r =
        getPlayerRes g.players pid r +
          (gs.board.hexes.map (hexGain gs.board.vertices (d1 + d2) pid r)).sum) := by
  constructor
  · intro h7
    unfold roll_dice
    split
    · rfl
    · split
      · rfl
      · split
        · rfl
        · cases hgs : g.game_state <;> simp [hgs, h7]
  · intro gs pid r hst hcur hcid hgs h7 hex
    have hb : ((roll_dice g pidRoll d1 d2).2) =
        distribute_resources { g with game_state := some { gs with
          last_dice_roll := [d1, d2],
          game_log := gs.game_log ++
            [LogEntry.dice_roll pidRoll [d1, d2] (d1 + d2)] } } (d1 + d2) := by
      simp [roll_dice, hst, hcur, hcid, hgs, h7]
    rw [hb]
    rw [distribute_resources_eq _ (d1 + d2)
      { gs with last_dice_roll := [d1, d2],
                game_log := gs.game_log ++
                  [LogEntry.dice_roll pidRoll [d1, d2] (d1 + d2)] } rfl]
    dsimp only
    exact getPlayerRes_distFold gs.board.vertices (d1 + d2) pid r gs.board.hexes
      g.players hex

def p1RollFx : Player := mkPlayerFx 1 10 0 true

def gsRollFx : GameState :=
  { board := { hexes := [{ id := 0, terrain := TerrainType.selva, number_token := some 6,
                           has_conquistador := false, q := 0, r := 0 }],
               vertices := [{ id := 0, q := 0, r := 0,
                              building := some BuildingType.bohio, player_id := some 1,
                              is_port := false, port_type := none }],
               edges := [], ports := [], conquistador_position := 3 },
    development_deck := [], last_dice_roll := [], game_log := [] }

/-- A one-player ACTIVE game: a selva hex with token 6 and a bohio owned by
player 1. -/
def gRollFx : Game :=
  { id := 7, max_players := 4, status := GameStatus.active, current_turn := 0,
    winner_id := none, players := [p1RollFx], game_state := some gsRollFx }

/-- C6 (witness): a 7 leaves the players untouched; a roll of 6 credits
player 1 with the hex-gain sum for wood. -/
theorem c6_witness :
    ((roll_dice gRollFx 1 3 4).2).players = gRollFx.players ∧
    getPlayerRes ((roll_dice gRollFx 1 3 3).2.players) 1 ResourceType.wood =
      getPlayerRes gRollFx.players 1 ResourceType.wood +
        (gsRollFx.board.hexes.map
          (hexGain gsRollFx.board.vertices 6 1 ResourceType.wood)).sum := by
  refine ⟨(c6_roll_distribution gRollFx 1 3 4 p1RollFx).1 (by decide), ?_⟩
  have h := (c6_roll_distribution gRollFx 1 3 3 p1RollFx).2 gsRollFx 1
    ResourceType.wood rfl (by decide) rfl rfl (by decide) (by decide)
  simpa using h


/-! ### C3: one-way status transitions -/

def statusRank : GameStatus → Nat
  | GameStatus.waiting => 0
  | GameStatus.active => 1
  | GameStatus.finished => 2

def Action.isStart : Action → Bool
  | Action.start _ _ => true
  | _ => false

theorem statusRank_le_two (s : GameStatus) : statusRank s ≤ 2 := by
  cases s <;> simp [statusRank]

theorem join_game_basic (g : Game) (u n : Nat) :
    (join_game g u n).2.status = g.status ∧
    (join_game g u n).2.winner_id = g.winner_id ∧
    (g.status ≠ GameStatus.waiting → (join_game g u n).2 = g) := by
  unfold join_game
  split
  · exact ⟨rfl, rfl, fun _ => rfl⟩
  · rename_i hw
    split
    · exact ⟨rfl, rfl, fun h => absurd h hw⟩
    · split
      · exact ⟨rfl, rfl, fun h => absurd h hw⟩
      · dsimp only
        split
        · exact ⟨rfl, rfl, fun h => absurd h hw⟩
        · exact ⟨rfl, rfl, fun h => absurd h hw⟩

theorem roll_dice_inactive (g : Game) (pid d1 d2 : Nat)
    (h : g.status ≠ GameStatus.active) : (roll_dice g pid d1 d2).2 = g := by
  unfold roll_dice
  rw [if_pos h]

theorem end_turn_inactive (g : Game) (pid : Nat)
    (h : g.status ≠ GameStatus.active) : (end_turn g pid).2 = g := by
  unfold end_turn
  rw [if_pos h]

theorem build_inactive (g : Game) (pid : Nat) (bt : BuildingType) (pos : Nat)
    (h : g.status ≠ GameStatus.active) : (build g pid bt pos).2 = g := by
  unfold build
  rw [if_pos h]

theorem buy_inactive (g : Game) (pid : Nat)
    (h : g.status ≠ GameStatus.active) : (buy_development_card g pid).2 = g := by
  unfold buy_development_card
  rw [if_pos h]

theorem check_victory_shape (g : Game) :
    check_victory g = g ∨
    ∃ p ∈ g.players, 10 ≤ total_points p ∧
      (check_victory g).status = GameStatus.finished ∧
      (check_victory g).winner_id = some p.user_id ∧
      (check_victory g).players = g.players := by
  cases hf : g.players.find? (fun p => 10 ≤ total_points p) with
  | none =>
    left
    simp [check_victory, hf]
  | some p =>
    right
    refine ⟨p, List.mem_of_find?_eq_some hf, ?_, ?_⟩
    · have := List.find?_some hf
      simpa using this
    · cases hgs : g.game_state <;> simp [check_victory, hf, hgs]

theorem build_shape (g : Game) (pid : Nat) (bt : BuildingType) (pos : Nat) :
    (build g pid bt pos).2 = g ∨
    ∃ g2 : Game, (build g pid bt pos).2 = check_victory g2 ∧
      g2.winner_id = g.winner_id ∧ g2.status = g.status := by
  unfold build
  split
  · left; rfl
  · split
    · left; rfl
    · split
      · left; rfl
      · right
        cases hgs : g.game_state <;>
          (simp [hgs]; exact ⟨_, rfl, rfl, rfl⟩)

theorem buy_shape (g : Game) (pid : Nat) :
    (buy_development_card g pid).2 = g ∨
    ∃ g2 : Game, (buy_development_card g pid).2 = check_victory g2 ∧
      g2.winner_id = g.winner_id ∧ g2.status = g.status := by
  unfold buy_development_card
  split
  · left; rfl
  · split
    · left; rfl
    · split
      · left; rfl
      · split
        · left; rfl
        · split
          · left; rfl
          · right
            exact ⟨_, rfl, rfl, rfl⟩


/-- C3 (amended): every action other than startGame moves the status only
forward along WAITING → ACTIVE → FINISHED, a FINISHED game is left
byte-for-byte unchanged by any non-start action, and the winner changes only
when a victory evaluation simultaneously sets status to FINISHED and records
a player whose total has reached the threshold; startGame itself, however,
never checks the status and so can move a FINISHED game back to ACTIVE. -/
theorem c3_status_forward (g : Game) (a : Action) (hnot : a.isStart = false) :
    statusRank g.status ≤ statusRank ((step g a).status) ∧
    (g.status = GameStatus.finished → step g a = g) ∧
    ((step g a).winner_id ≠ g.winner_id →
      (step g a).status = GameStatus.finished ∧
      ∃ p ∈ (step g a).players, some p.user_id = (step g a).winner_id ∧
        10 ≤ total_points p) := by
  cases a with
  | join u n =>
    have h := join_game_basic g u n
    refine ⟨?_, ?_, ?_⟩
    · rw [step, h.1]
    · intro hf
      rw [step]
      exact h.2.2 (by rw [hf]; intro hc; cases hc)
    · intro hw
      rw [step] at hw
      exact absurd h.2.1 hw
  | start u rng => simp [Action.isStart] at hnot
  | roll pid d1 d2 =>
    have hs := roll_dice_status g pid d1 d2
    refine ⟨?_, ?_, ?_⟩
    · rw [step, hs.1]
    · intro hf
      rw [step]
      exact roll_dice_inactive g pid d1 d2 (by rw [hf]; intro hc; cases hc)
    · intro hw
      rw [step] at hw
      exact absurd hs.2 hw
  | endTurnA pid =>
    have hs := end_turn_status g pid
    refine ⟨?_, ?_, ?_⟩
    · rw [step, hs.1]
    · intro hf
      rw [step]
      exact end_turn_inactive g pid (by rw [hf]; intro hc; cases hc)
    · intro hw
      rw [step] at hw
      exact absurd hs.2 hw
  | buildA pid bt pos =>
    refine ⟨?_, ?_, ?_⟩
    · rcases build_shape g pid bt pos with hb | ⟨g2, hb, hw2, hs2⟩
      · rw [step, hb]
      · rw [step, hb]
        rcases check_victory_shape g2 with hc | ⟨p, hp, h10, hcs, hcw, hcp⟩
        · rw [hc, hs2]
        · rw [hcs]
          exact statusRank_le_two g.status
    · intro hf
      rw [step]
      exact build_inactive g pid bt pos (by rw [hf]; intro hc; cases hc)
    · intro hw
      rw [step] at hw ⊢
      rcases build_shape g pid bt pos with hb | ⟨g2, hb, hw2, hs2⟩
      · rw [hb] at hw
        exact absurd rfl hw
      · rw [hb] at hw ⊢
        rcases check_victory_shape g2 with hc | ⟨p, hp, h10, hcs, hcw, hcp⟩
        · rw [hc] at hw
          rw [hw2] at hw
          exact absurd rfl hw
        · refine ⟨hcs, p, ?_, ?_, h10⟩
          · rw [hcp]; exact hp
          · rw [hcw]
  | buyCard pid =>
    refine ⟨?_, ?_, ?_⟩
    · rcases buy_shape g pid with hb | ⟨g2, hb, hw2, hs2⟩
      · rw [step, hb]
      · rw [step, hb]
        rcases check_victory_shape g2 with hc | ⟨p, hp, h10, hcs, hcw, hcp⟩
        · rw [hc, hs2]
        · rw [hcs]
          exact statusRank_le_two g.status
    · intro hf
      rw [step]
      exact buy_inactive g pid (by rw [hf]; intro hc; cases hc)
    · intro hw
      rw [step] at hw ⊢
      rcases buy_shape g pid with hb | ⟨g2, hb, hw2, hs2⟩
      · rw [hb] at hw
        exact absurd rfl hw
      · rw [hb] at hw ⊢
        rcases check_victory_shape g2 with hc | ⟨p, hp, h10, hcs, hcw, hcp⟩
        · rw [hc] at hw
          rw [hw2] at hw
          exact absurd rfl hw
        · refine ⟨hcs, p, ?_, ?_, h10⟩
          · rw [hcp]; exact hp
          · rw [hcw]


/-- A FINISHED three-player game whose host is user 10. -/
def gFinFx : Game :=
  { id := 8, max_players := 4, status := GameStatus.finished, current_turn := 3,
    winner_id := some 20,
    players := [mkPlayerFx 1 10 0 true, mkPlayerFx 2 20 1 false, mkPlayerFx 3 30 2 false],
    game_state := none }

/-- C3 (counterexample): `start_game` never checks the status, so the host
restarting a FINISHED game moves the status back to ACTIVE — refuting
"no action (including a startGame call issued after the game has finished)
ever moves the status back". -/
theorem c3_counterexample :
    gFinFx.status = GameStatus.finished ∧
    (step gFinFx (Action.start 10 (mkRng 0))).status = GameStatus.active := by
  exact ⟨rfl, by decide⟩

/-- C3 (witness): a non-start action on a FINISHED game leaves it untouched. -/
theorem c3_witness :
    statusRank gFinFx.status ≤ statusRank ((step gFinFx (Action.endTurnA 1)).status) ∧
    step gFinFx (Action.endTurnA 1) = gFinFx := by
  have h := c3_status_forward gFinFx (Action.endTurnA 1) (by decide)
  exact ⟨h.1, h.2.1 rfl⟩


/-! ### C4: resource counters never go negative -/

/-- Non-negativity of one player's five resource counters. -/
def playerNonneg (p : Player) : Prop :=
  0 ≤ p.gold ∧ 0 ≤ p.stone ∧ 0 ≤ p.cotton ∧ 0 ≤ p.maize ∧ 0 ≤ p.wood

/-- Non-negativity of every player's resource counters. -/
def ResourcesNonneg (g : Game) : Prop := ∀ p ∈ g.players, playerNonneg p

theorem setRes_nonneg (p : Player) (r : ResourceType) (v : Int)
    (hp : playerNonneg p) (hv : 0 ≤ v) : playerNonneg (p.setRes r v) := by
  cases r <;> (simp [Player.setRes, playerNonneg] at hp ⊢; omega)

theorem getRes_nonneg (p : Player) (r : ResourceType) (hp : playerNonneg p) :
    0 ≤ p.getRes r := by
  cases r <;> (simp [Player.getRes]; simp [playerNonneg] at hp; omega)

theorem creditAmount_nonneg (b : BuildingType) : 0 ≤ creditAmount b := by
  cases b <;> simp [creditAmount]

theorem creditForVertex_nonneg (ps : List Player) (v : Vertex) (res : ResourceType)
    (h : ∀ x ∈ ps, playerNonneg x) : ∀ x ∈ creditForVertex ps v res, playerNonneg x := by
  unfold creditForVertex
  cases hb : v.building with
  | none => exact h
  | some b =>
    cases hq : v.player_id with
    | none => exact h
    | some q =>
      by_cases hq0 : q = 0
      · simp [hq0]; exact fun x hx => h x hx
      · dsimp only
        rw [if_pos hq0]
        exact updateFirst_forall _ _ playerNonneg
          (fun x hx => setRes_nonneg x res _ hx
            (by have := getRes_nonneg x res hx
                have := creditAmount_nonneg b
                omega)) ps h

theorem creditFold_nonneg (vs : List Vertex) (res : ResourceType) :
    ∀ ps : List Player, (∀ x ∈ ps, playerNonneg x) →
      ∀ x ∈ vs.foldl (fun qs v => creditForVertex qs v res) ps, playerNonneg x := by
  induction vs with
  | nil => intro ps h; exact h
  | cons v vs ih =>
    intro ps h
    rw [List.foldl_cons]
    exact ih (creditForVertex ps v res) (creditForVertex_nonneg ps v res h)

theorem distStepFold_nonneg (vs : List Vertex) (total : Nat) :
    ∀ (hs : List Hex) (ps : List Player), (∀ x ∈ ps, playerNonneg x) →
      ∀ x ∈ hs.foldl (distStep vs total) ps, playerNonneg x := by
  intro hs
  induction hs with
  | nil => intro ps h; exact h
  | cons hx hs ih =>
    intro ps h
    rw [List.foldl_cons]
    refine ih (distStep vs total ps hx) ?_
    unfold distStep
    by_cases hcond : (hx.number_token == some total && !hx.has_conquistador) = true
    · rw [if_pos hcond]
      cases hterr : get_terrain_resource hx.terrain
      · exact h
      · exact creditFold_nonneg vs _ ps h
    · rw [if_neg hcond]
      exact h

theorem distribute_resources_nonneg (g : Game) (t : Nat)
    (h : ResourcesNonneg g) : ResourcesNonneg (distribute_resources g t) := by
  cases hgs : g.game_state with
  | none =>
    unfold distribute_resources
    rw [hgs]
    exact h
  | some gs =>
    intro p hp
    rw [distribute_resources_eq g t gs hgs] at hp
    exact distStepFold_nonneg gs.board.vertices t gs.board.hexes g.players h p hp

theorem deduct_building_nonneg (p : Player) (bt : BuildingType)
    (haff : canAfford p (BUILDING_COSTS bt) = true) (hp : playerNonneg p) :
    playerNonneg (deductCosts p (BUILDING_COSTS bt)) := by
  cases bt <;>
    (simp [canAfford, BUILDING_COSTS, Player.getRes] at haff
     simp [deductCosts, BUILDING_COSTS, Player.setRes, Player.getRes,
       playerNonneg] at hp ⊢
     omega)

theorem deduct_dev_nonneg (p : Player)
    (haff : canAfford p DEVELOPMENT_CARD_COST = true) (hp : playerNonneg p) :
    playerNonneg (deductCosts p DEVELOPMENT_CARD_COST) := by
  simp [canAfford, DEVELOPMENT_CARD_COST, Player.getRes] at haff
  simp [deductCosts, DEVELOPMENT_CARD_COST, Player.setRes, Player.getRes,
    playerNonneg] at hp ⊢
  omega


theorem join_nonneg (g : Game) (u n : Nat) (h : ResourcesNonneg g) :
    ResourcesNonneg ((join_game g u n).2) := by
  unfold join_game
  split
  · exact h
  · split
    · exact h
    · split
      · exact h
      · dsimp only
        split
        · exact h
        · intro p hp
          simp at hp
          rcases hp with hp | hp
          · exact h p hp
          · subst hp
            exact ⟨by simp, by simp, by simp, by simp, by simp⟩

theorem start_nonneg (g : Game) (u : Nat) (rng : Rng) (h : ResourcesNonneg g) :
    ResourcesNonneg ((start_game g u rng).2) := by
  unfold start_game
  split
  · exact h
  · split
    · exact h
    · have hmap : ∀ p ∈ g.players.map (fun p =>
          match ((shuffle rng g.players).1.enum.find? fun ip => ip.2.id == p.id) with
          | some ip => { p with turn_order := ip.1 }
          | none => p), playerNonneg p := by
        intro p hp
        rw [List.mem_map] at hp
        obtain ⟨q, hq, hpq⟩ := hp
        have hnq := h q hq
        subst hpq
        cases hfind : (shuffle rng g.players).1.enum.find? fun ip => ip.2.id == q.id <;>
          simp [hfind]
        · exact hnq
        · exact hnq
      cases hgs : g.game_state with
      | none =>
        intro p hp
        simp at hp
        exact hmap p (by simpa using hp)
      | some gs =>
        intro p hp
        simp [hgs] at hp
        exact hmap p (by simpa using hp)


theorem roll_nonneg (g : Game) (pid d1 d2 : Nat) (h : ResourcesNonneg g) :
    ResourcesNonneg ((roll_dice g pid d1 d2).2) := by
  unfold roll_dice
  split
  · exact h
  · split
    · exact h
    · split
      · exact h
      · cases hgs : g.game_state with
        | none =>
          dsimp only
          split
          · exact distribute_resources_nonneg _ _ (fun p hp => h p hp)
          · exact h
        | some gs =>
          dsimp only
          split
          · exact distribute_resources_nonneg _ _ (fun p hp => h p hp)
          · intro p hp
            exact h p hp

theorem build_nonneg (g : Game) (pid : Nat) (bt : BuildingType) (pos : Nat)
    (h : ResourcesNonneg g) : ResourcesNonneg ((build g pid bt pos).2) := by
  unfold build
  split
  · exact h
  · split
    · exact h
    · rename_i p heq
      split
      · exact h
      · rename_i haffn
        have haff : canAfford p (BUILDING_COSTS bt) = true := by
          revert haffn
          cases canAfford p (BUILDING_COSTS bt) <;> simp
        have h1 : ∀ x ∈ updateFirst (fun x => x.id == pid)
            (fun q => deductCosts q (BUILDING_COSTS bt)) g.players, playerNonneg x :=
          updateFirst_forall_found _ _ playerNonneg p
            (fun hx => deduct_building_nonneg p bt haff hx) g.players heq h
        cases hgs : g.game_state with
        | none =>
          intro x hx
          rw [(check_victory_players _).1] at hx
          exact h1 x hx
        | some gs =>
          intro x hx
          rw [(check_victory_players _).1] at hx
          refine updateFirst_forall _ _ playerNonneg ?_ _ h1 x hx
          intro y hy
          simpa [playerNonneg] using hy

theorem buy_nonneg (g : Game) (pid : Nat) (h : ResourcesNonneg g) :
    ResourcesNonneg ((buy_development_card g pid).2) := by
  unfold buy_development_card
  split
  · exact h
  · split
    · exact h
    · rename_i gs hgs
      split
      · exact h
      · rename_i p heq
        split
        · exact h
        · rename_i haffn
          have haff : canAfford p DEVELOPMENT_CARD_COST = true := by
            revert haffn
            cases canAfford p DEVELOPMENT_CARD_COST <;> simp
          split
          · exact h
          · rename_i card hcard
            dsimp only
            intro x hx
            rw [(check_victory_players _).1] at hx
            refine updateFirst_forall_found _ _ playerNonneg p ?_ g.players heq h x hx
            intro hp
            have hd := deduct_dev_nonneg p haff hp
            by_cases hc : card = DevelopmentCardType.avance_ancestral
            · simpa [hc, playerNonneg] using hd
            · simpa [hc, playerNonneg] using hd

theorem end_turn_nonneg (g : Game) (pid : Nat) (h : ResourcesNonneg g) :
    ResourcesNonneg ((end_turn g pid).2) := by
  unfold end_turn
  split
  · exact h
  · split
    · exact h
    · split
      · exact h
      · cases hgs : g.game_state with
        | none => intro p hp; exact h p hp
        | some gs =>
          intro p hp
          exact h p hp

theorem step_nonneg (g : Game) (a : Action) (h : ResourcesNonneg g) :
    ResourcesNonneg (step g a) := by
  cases a with
  | join u n => exact join_nonneg g u n h
  | start u rng => exact start_nonneg g u rng h
  | roll pid d1 d2 => exact roll_nonneg g pid d1 d2 h
  | buildA pid bt pos => exact build_nonneg g pid bt pos h
  | buyCard pid => exact buy_nonneg g pid h
  | endTurnA pid => exact end_turn_nonneg g pid h

theorem run_nonneg (acts : List Action) :
    ∀ g : Game, ResourcesNonneg g → ResourcesNonneg (run g acts) := by
  induction acts with
  | nil => intro g h; exact h
  | cons a acts ih =>
    intro g h
    exact ih (step g a) (step_nonneg g a h)

theorem create_game_players (gid huid hpid maxP : Nat) (rng : Rng) :
    (create_game gid huid hpid maxP rng).players =
      [{ id := hpid, user_id := huid, color := AVAILABLE_COLORS.headI, turn_order := 0,
         victory_points := 0, is_host := true, is_active := true,
         gold := 0, stone := 0, cotton := 0, maize := 0, wood := 0,
         warrior_cards := 0, victory_cards := 0,
         has_longest_path := false, has_largest_army := false,
         development_cards := [] }] := rfl

theorem create_game_nonneg (gid huid hpid maxP : Nat) (rng : Rng) :
    ResourcesNonneg (create_game gid huid hpid maxP rng) := by
  intro p hp
  rw [create_game_players] at hp
  simp at hp
  subst hp
  exact ⟨by simp, by simp, by simp, by simp, by simp⟩


/-- C4: starting from a freshly created game, after every prefix of every
sequence of engine actions (join, start, roll, build, buy-card, end-turn),
every player's five resource counters remain non-negative. -/
theorem c4_resources_nonneg (gid huid hpid maxP : Nat) (rng : Rng)
    (acts : List Action) (n : Nat) :
    ResourcesNonneg (run (create_game gid huid hpid maxP rng) (acts.take n)) :=
  run_nonneg (acts.take n) _ (create_game_nonneg gid huid hpid maxP rng)

/-- C4 (witness): the invariant at a concrete game and action prefix. -/
theorem c4_witness :
    ResourcesNonneg (run (create_game 0 1 1 4 (mkRng 0)) ([Action.endTurnA 1].take 1)) :=
  c4_resources_nonneg 0 1 1 4 (mkRng 0) [Action.endTurnA 1] 1

end Teyuna
